import Mathlib

set_option maxRecDepth 8000
set_option exponentiation.threshold 1100

/-!
Verification of the Paris green-air data pipeline
(`scripts/fetch_data.py`, `scripts/process_data.py`, `scripts/load_to_db.py`).

Part 1 embeds the arrondissement normalizers:
  * `normalize_arrondissement_trees`   — `process_data.py` lines 26-32
    (the local `normalize_arrondissement` inside `process_trees`),
  * `normalize_cooling_arrondissement` — `process_data.py` lines 228-244,
  * `normalize_arrondissement_db`      — `load_to_db.py` lines 91-106.

Python strings are modelled as `List Char`.  A raw cell value (the
argument `x`, which pandas may deliver as NaN/None, str, int or float)
is modelled by `Raw`.  Floats are restricted to exactly-representable
integral values (constructor `Raw.float n` denotes the float `n.0`).
The model of `float(s)` follows the CPython grammar — optional sign,
`inf`/`infinity`/`nan` case-insensitively, decimal digits with optional
fraction, exponent and single underscores between digits — and keeps
finite values as exact decimal rationals, classifying a literal as
infinite exactly at the IEEE-754 binary64 overflow threshold; an
infinite value makes `int()` raise `OverflowError`, which the
normalizers' `except (ValueError, TypeError)` does not catch.
-/

/-- Convert a string literal to the `List Char` representation used throughout. -/
def toL (s : String) : List Char := s.data

/-- A raw pandas cell value.  `null` stands for anything with `pd.isna(x)` true. -/
inductive Raw
  | null
  | str (s : List Char)
  | int (n : Int)
  | float (n : Int)
deriving DecidableEq

/-- Digit characters of a natural number, most significant first
(`str(n)` for `n ≥ 0`); fuel-structural so the kernel can evaluate it. -/
def natCharsCore : Nat → Nat → List Char → List Char
  | 0, _, acc => acc
  | fuel + 1, n, acc =>
    if n < 10 then Nat.digitChar n :: acc
    else natCharsCore fuel (n / 10) (Nat.digitChar (n % 10) :: acc)

/-- `str(n)` for a natural number. -/
def natChars (n : Nat) : List Char := natCharsCore (n + 1) n []

/-- `str(n)` for a Python int. -/
def intChars (n : Int) : List Char :=
  if n < 0 then '-' :: natChars n.natAbs else natChars n.natAbs

/-- `str(x)` when `x` is not NaN/None (`pd.isna(x)` false): strings unchanged,
ints printed, integral floats printed with a trailing `.0`. -/
def pyStrOpt : Raw → Option (List Char)
  | Raw.null => none
  | Raw.str s => some s
  | Raw.int n => some (intChars n)
  | Raw.float n => some (intChars n ++ ['.', '0'])

/-- The whitespace set of Python `str.strip()` / `str.isspace()`: ASCII
space, `\t\n\v\f\r`, the C1 separators 28-31, NEL (133), NBSP (160), and
the Unicode space separators (Ogham space, the U+2000 block, line and
paragraph separators, narrow/medium spaces, ideographic space). -/
def pyWs (c : Char) : Bool :=
  let n := c.toNat
  (9 ≤ n && n ≤ 13) || n == 32 || (28 ≤ n && n ≤ 31) || n == 133 || n == 160 ||
    n == 5760 || (8192 ≤ n && n ≤ 8202) || n == 8232 || n == 8233 || n == 8239 ||
    n == 8287 || n == 12288

/-- Python `str.strip()`. -/
def stripL (l : List Char) : List Char :=
  ((l.dropWhile pyWs).reverse.dropWhile pyWs).reverse

/-- Python `str.isdigit()` restricted to ASCII digits. -/
def isdigitL (l : List Char) : Bool :=
  !l.isEmpty && l.all Char.isDigit

/-- Value of `int(s)` on a digit string (leading zeros allowed). -/
def toNatL (l : List Char) : Nat :=
  l.foldl (fun a c => 10 * a + (c.toNat - 48)) 0

/-- Python slice `s[a:b]` for `0 ≤ a ≤ b`. -/
def sliceL (l : List Char) (a b : Nat) : List Char :=
  (l.drop a).take (b - a)

/-- `a.isPrefixOf b` spelled out (Python `s.startswith(p)` is `isPre p s`). -/
def isPre : List Char → List Char → Bool
  | [], _ => true
  | _ :: _, [] => false
  | p :: ps, c :: cs => p == c && isPre ps cs

/-- Python `s.zfill(w)` on a digits-only string. -/
def zfillL (w : Nat) (l : List Char) : List Char :=
  List.replicate (w - l.length) '0' ++ l

/-- `f-string` format `{v:05d}`. -/
def intToChars5 (v : Int) : List Char :=
  if v < 0 then '-' :: zfillL 4 (natChars v.natAbs) else zfillL 5 (natChars v.natAbs)

/-- Leading sign of a float literal: `-` / `+` / none. -/
def splitSign (s : List Char) : Bool × List Char :=
  match s with
  | [] => (false, [])
  | c :: t => if c = '-' then (true, t) else if c = '+' then (false, t) else (false, s)

/-- ASCII lower-casing, as CPython's float parser applies to `inf`/`nan`. -/
def asciiLower (c : Char) : Char :=
  if 'A' ≤ c ∧ c ≤ 'Z' then Char.ofNat (c.toNat + 32) else c

/-- One CPython `digitpart`: a maximal run of ASCII digits in which a single
underscore may stand between two digits (`1_000`).  Returns the digits read
(underscores dropped, as CPython drops them) and the unread remainder; an
ill-placed underscore is simply left in the remainder, where the caller's
grammar rejects it.  Fuel-structural so the kernel can evaluate it. -/
def digitsUCore : Nat → List Char → List Char × List Char
  | 0, l => ([], l)
  | _ + 1, [] => ([], [])
  | fuel + 1, c :: rest =>
    if c.isDigit then
      match rest with
      | r :: d :: rest2 =>
        if r = '_' ∧ d.isDigit then
          let p := digitsUCore fuel (d :: rest2)
          (c :: p.1, p.2)
        else
          let p := digitsUCore fuel rest
          (c :: p.1, p.2)
      | _ =>
        let p := digitsUCore fuel rest
        (c :: p.1, p.2)
    else ([], c :: rest)

/-- A CPython `digitpart` read off the front of `l`. -/
def digitsU (l : List Char) : List Char × List Char := digitsUCore l.length l

/-- Result of `float(s)`: NaN, signed infinity, or the finite exact decimal
`±mant * 10^ex`.  CPython rounds the exact decimal to the nearest IEEE-754
binary64, which agrees with it on every integral literal below `2^53` and
moves any value by less than half an ulp (see the guard in `unmappable`). -/
inductive PyFloatVal
  | nan
  | inf (neg : Bool)
  | finite (neg : Bool) (mant : Nat) (ex : Int)
deriving DecidableEq

/-- The IEEE-754 binary64 round-to-nearest-even overflow threshold
`(2 - 2^-53) * 2^1023`, an integer: decimal literals of at least this
magnitude round to infinity, smaller ones to a finite double. -/
def overflowBound : Nat := 2 ^ 1024 - 2 ^ 970

/-- `overflowBound ≤ mant * 10^e`, integerized by the sign of `e`. -/
def overflows (mant : Nat) (e : Int) : Bool :=
  if 0 ≤ e then decide (overflowBound ≤ mant * 10 ^ e.toNat)
  else decide (overflowBound * 10 ^ (-e).toNat ≤ mant)

/-- Exact value of a parsed decimal literal (integer digits, fraction
digits, decimal exponent), classified as infinite exactly when IEEE
rounding overflows. -/
def mkFinite (neg : Bool) (ds fs : List Char) (ex : Int) : PyFloatVal :=
  let mant := toNatL (ds ++ fs)
  let e := ex - (fs.length : Int)
  if overflows mant e then PyFloatVal.inf neg
  else PyFloatVal.finite neg mant e

/-- The optional exponent part `("e" | "E") sign? digitpart` of a CPython
float literal, applied after the digits already read; any other non-empty
remainder makes the whole literal invalid. -/
def pyFloatExp (neg : Bool) (ds fs : List Char) : List Char → Option PyFloatVal
  | [] => some (mkFinite neg ds fs 0)
  | e :: r2 =>
    if e = 'e' ∨ e = 'E' then
      let sq := splitSign r2
      let p3 := digitsU sq.2
      if p3.1.isEmpty || !p3.2.isEmpty then none
      else
        some (mkFinite neg ds fs
          (if sq.1 then -(Int.ofNat (toNatL p3.1)) else Int.ofNat (toNatL p3.1)))
    else none

/-- `float(s)` on a stripped string, following the CPython grammar: an
optional sign, then `inf`/`infinity`/`nan` case-insensitively, or
`digitpart? ["." digitpart?] [("e" | "E") sign? digitpart]` with at least
one digit and single underscores allowed between digits.  `none` models
`ValueError`.  Digits are modelled as ASCII (CPython additionally accepts
non-ASCII decimal digits, which this pipeline's data never contains). -/
def pyFloat (s : List Char) : Option PyFloatVal :=
  let q := splitSign s
  let t := q.2.map asciiLower
  if t = ['i', 'n', 'f'] ∨ t = ['i', 'n', 'f', 'i', 'n', 'i', 't', 'y'] then
    some (PyFloatVal.inf q.1)
  else if t = ['n', 'a', 'n'] then some PyFloatVal.nan
  else
    let p1 := digitsU q.2
    match p1.2 with
    | '.' :: r2 =>
      let p2 := digitsU r2
      if p1.1.isEmpty && p2.1.isEmpty then none
      else pyFloatExp q.1 p1.1 p2.1 p2.2
    | r1 => if p1.1.isEmpty then none else pyFloatExp q.1 p1.1 [] r1

/-- `int()` on the finite float value `±mant * 10^ex`: truncation toward
zero (on the magnitude, `Nat` division by `10^-ex` truncates). -/
def pyTrunc (ng : Bool) (mant : Nat) (ex : Int) : Int :=
  let mag : Nat := if 0 ≤ ex then mant * 10 ^ ex.toNat else mant / 10 ^ (-ex).toNat
  if ng then -(mag : Int) else (mag : Int)

/-- The guard of `process_data.py` line 234 and `load_to_db.py` line 97:
`x.startswith('750') and x[3:5].isdigit() and 1 <= int(x[3:5]) <= 20`. -/
def prefixWindowAccept (s : List Char) : Bool :=
  isPre (toL ("750")) s && isdigitL (sliceL s 3 5) &&
    decide (1 ≤ toNatL (sliceL s 3 5)) && decide (toNatL (sliceL s 3 5) ≤ 20)

/-- `normalize_cooling_arrondissement` (`process_data.py` lines 228-244),
return-value model.  `none` is the Python `None` result: the
`except (ValueError, TypeError)` clause catches the `ValueError` of a
failed `float(x)` and of `int(nan)`, so both give `None`.  An infinite
`float(x)` instead makes `int()` raise `OverflowError`, which that clause
does NOT catch — the call then raises rather than returning; that
non-returning path is recorded by `normalize_cooling_raises`, and this
value model returns `none` on it. -/
def normalize_cooling_arrondissement (x : Raw) : Option (List Char) :=
  match pyStrOpt x with
  | none => none
  | some s0 =>
    let s := stripL s0
    if prefixWindowAccept s then some (s.take 5)
    else
      match pyFloat s with
      | some (PyFloatVal.finite ng mant e) =>
        if 75001 ≤ pyTrunc ng mant e ∧ pyTrunc ng mant e ≤ 75020 then
          some (intToChars5 (pyTrunc ng mant e))
        else none
      | some (PyFloatVal.inf _) => none
      | some PyFloatVal.nan => none
      | none => none

/-- The inputs on which `normalize_cooling_arrondissement` does not return at
all: `int(float(x))` with `float(x)` infinite raises `OverflowError`, which
`except (ValueError, TypeError)` lets propagate out of the call. -/
def normalize_cooling_raises (x : Raw) : Bool :=
  match pyStrOpt x with
  | none => false
  | some s0 =>
    let s := stripL s0
    if prefixWindowAccept s then false
    else
      match pyFloat s with
      | some (PyFloatVal.inf _) => true
      | _ => false

/-- `normalize_arrondissement` (`load_to_db.py` lines 91-106); its body is
line-for-line the same as `normalize_cooling_arrondissement` (including the
uncaught `OverflowError` on infinite `float(x)`). -/
def normalize_arrondissement_db (x : Raw) : Option (List Char) :=
  match pyStrOpt x with
  | none => none
  | some s0 =>
    let s := stripL s0
    if prefixWindowAccept s then some (s.take 5)
    else
      match pyFloat s with
      | some (PyFloatVal.finite ng mant e) =>
        if 75001 ≤ pyTrunc ng mant e ∧ pyTrunc ng mant e ≤ 75020 then
          some (intToChars5 (pyTrunc ng mant e))
        else none
      | some (PyFloatVal.inf _) => none
      | some PyFloatVal.nan => none
      | none => none

/-- Python `s.replace(pat, rep)` (all non-overlapping occurrences, left to
right); fuel-structural, with fuel `s.length` (enough for non-empty `pat`). -/
def replaceCore (pat rep : List Char) : Nat → List Char → List Char
  | 0, l => l
  | _ + 1, [] => []
  | fuel + 1, c :: rest =>
    if isPre pat (c :: rest) then rep ++ replaceCore pat rep fuel ((c :: rest).drop pat.length)
    else c :: replaceCore pat rep fuel rest

/-- Python `l.replace(pat, rep)`. -/
def replaceL (l pat rep : List Char) : List Char :=
  replaceCore pat rep l.length l

/-- The local `normalize_arrondissement` inside `process_trees`
(`process_data.py` lines 26-32). -/
def normalize_arrondissement_trees (x : Raw) : Option (List Char) :=
  match pyStrOpt x with
  | none => none
  | some s0 =>
    let s := replaceL (replaceL (replaceL s0 (toL ("PARIS ")) []) (toL ("E ARRDT")) [])
      (toL ("ER ARRDT")) []
    if isdigitL s ∧ 1 ≤ toNatL s ∧ toNatL s ≤ 20 then
      some (toL ("750") ++ zfillL 2 s)
    else none

/-- Canonical district code `750` + two zero-padded digits of `d` (`1 ≤ d ≤ 20`). -/
def canonCode (d : Nat) : List Char :=
  '7' :: '5' :: '0' :: [Nat.digitChar (d / 10), Nat.digitChar (d % 10)]

/-- Surround a string with `j` leading and `i` trailing spaces. -/
def spacePad (j i : Nat) (core : List Char) : List Char :=
  List.replicate j ' ' ++ core ++ List.replicate i ' '

/-!
Part 2 embeds the fetch pipeline of `scripts/fetch_data.py`:
`fetch_chunk` (lines 21-33), `fetch_csv_download` (lines 36-50) and the
orchestrator `fetch_from_paris_api` (lines 53-182).

Records are modelled as opaque naturals (the code only accumulates and
counts them).  The network is an oracle `Env`: the zero-row probe, the
checkpoint file `data/les_arbres_progress.json`, the partial snapshot
file `save_as`, the per-(offset, rows, attempt) page responses, the
`fetch_chunk` responses and the CSV-export response.  Exceptions raised
by network calls appear as `none` / `Except.error` oracle answers, which
is what the corresponding `except` blocks catch.  The filesystem state
`FS` (checkpoint + snapshot) is threaded through, and every externally
visible action is recorded as an `Ev` event.  The `while` loop runs on
fuel `nhits + 1`, which is shown sufficient whenever `rows ≥ 1`
(`rows = 0` makes the Python loop spin forever; the model then reports
`fuelOut`).  HTTP facet parameters and session objects only shape the
request string, so session rotation (lines 97-101) is modelled as the
counter reset it performs, without an event.
-/

/-- Network/filesystem oracle for one `fetch_from_paris_api` run.
`snapFile` is the snapshot file when it exists and is readable; the
existing-but-unparseable snapshot, on which the unguarded read of line 86
raises, is modelled separately by `resumeRead`. -/
structure Env where
  probe : Option Nat
  cpFile : Option (Option Nat)
  snapFile : Option (List Nat)
  page : Nat → Nat → Nat → Option (List Nat)
  chunk : String → Nat → Nat → Except String (List Nat)
  csv : Option (List Nat)

/-- Arguments of `fetch_from_paris_api` that the claims observe. -/
structure Cfg where
  dataset : String
  rows : Nat
  parallel : Bool
deriving DecidableEq

/-- Filesystem state: the checkpoint file (`some none` = present but
unreadable) and the `save_as` snapshot file. -/
structure FS where
  cp : Option (Option Nat)
  snap : Option (List Nat)
deriving DecidableEq

/-- Externally visible actions of a run. -/
inductive Ev
  | probeReq
  | pageReq (offset attempt : Nat)
  | chunkReq (offset : Nat)
  | sleepSec (n : Nat)
  | sleepShort
  | writeSnap (recs : List Nat)
  | writeCp (offset : Nat)
  | delCp
  | csvReq
deriving DecidableEq

/-- Observable outcome of a run. -/
structure RunResult where
  df : List Nat
  fs : FS
  events : List Ev
  usedFallback : Bool
  fuelOut : Bool
deriving DecidableEq

/-- Prefix some events onto a result's trace. -/
def prependEvents (evs : List Ev) (r : RunResult) : RunResult :=
  { r with events := evs ++ r.events }

/-- `fetch_csv_download` (lines 36-50): on success it writes the snapshot,
deletes the checkpoint file if present and returns the frame; on any
exception it returns an empty frame and touches nothing. -/
def fetch_csv_download (env : Env) (fs : FS) : List Nat × FS × List Ev :=
  match env.csv with
  | some recs =>
    (recs, { cp := none, snap := some recs },
      Ev.csvReq :: Ev.writeSnap recs :: (if fs.cp.isSome then [Ev.delCp] else []))
  | none => ([], fs, [Ev.csvReq])

/-- `fetch_chunk` (lines 21-33): one API page request; any exception is
caught and returned as `([], error text)`. -/
def fetch_chunk (env : Env) (dataset : String) (start rows : Nat) : List Nat × Option String :=
  match env.chunk dataset start rows with
  | Except.ok recs => (recs, none)
  | Except.error e => ([], some e)

/-- The `for attempt in range(5)` retry loop (lines 136-161), parameterised
by remaining attempts and current attempt index: stops at the first
success (with the `time.sleep(0.2)` of line 146), sleeps 2 seconds
between failed attempts (line 161), gives up after the fifth failure. -/
def attemptLoop (env : Env) (offset rw : Nat) : Nat → Nat → Option (List Nat) × List Ev
  | 0, _ => (none, [])
  | rem + 1, a =>
    match env.page offset rw a with
    | some recs => (some recs, [Ev.pageReq offset a, Ev.sleepShort])
    | none =>
      if rem = 0 then (none, [Ev.pageReq offset a])
      else
        let p := attemptLoop env offset rw rem (a + 1)
        (p.1, Ev.pageReq offset a :: Ev.sleepSec 2 :: p.2)

/-- Incremental save of lines 165-170: for `les-arbres` with at least 5000
accumulated records, write snapshot and checkpoint. -/
def incSave (cfg : Cfg) (all : List Nat) (start : Nat) (fs : FS) : FS × List Ev :=
  if cfg.dataset = "les-arbres" ∧ 5000 ≤ all.length then
    ({ cp := some (some start), snap := some all }, [Ev.writeSnap all, Ev.writeCp start])
  else (fs, [])

/-- Persist-before-fallback of lines 150-158: write the snapshot when
anything was accumulated, plus the checkpoint for `les-arbres`. -/
def seqFailPersist (cfg : Cfg) (all : List Nat) (start : Nat) (fs : FS) : FS × List Ev :=
  if all.isEmpty then (fs, [])
  else if cfg.dataset = "les-arbres" then
    ({ cp := some (some start), snap := some all }, [Ev.writeSnap all, Ev.writeCp start])
  else ({ fs with snap := some all }, [Ev.writeSnap all])

/-- Python `range(a, b, step)` for naturals (`step > 0` in all call sites). -/
def rangeStep (a b step : Nat) : List Nat :=
  (List.range ((b - a + step - 1) / step)).map (fun idx => a + idx * step)

/-- Loop exit (lines 172-182): write the final snapshot, delete the
checkpoint for `les-arbres`, and on a shortfall fall through to the CSV
export. -/
def completeRun (env : Env) (cfg : Cfg) (nh : Nat) (all : List Nat) (fs : FS) : RunResult :=
  let d : FS × List Ev :=
    if cfg.dataset = "les-arbres" ∧ fs.cp.isSome then
      ({ cp := none, snap := some all }, [Ev.writeSnap all, Ev.delCp])
    else ({ fs with snap := some all }, [Ev.writeSnap all])
  if all.length < nh then
    let c := fetch_csv_download env d.1
    ⟨c.1, c.2.1, d.2 ++ c.2.2, true, false⟩
  else ⟨all, d.1, d.2, false, false⟩

/-- One iteration of the `while start < nhits` body: either a new state or a
final result. -/
inductive StepOut
  | next (start : Nat) (all : List Nat) (sc : Nat) (fs : FS) (evs : List Ev)
  | stop (r : RunResult)

/-- The `while` body (lines 96-170).  `sc` is `session_count`. -/
def loopBody (env : Env) (cfg : Cfg) (nh start : Nat) (all : List Nat) (sc : Nat) (fs : FS) :
    StepOut :=
  let sc1 := if 5000 ≤ sc then 0 else sc
  if cfg.dataset = "les-arbres" ∧ cfg.parallel then
    let chunkSize := cfg.rows * 2
    let starts := rangeStep start (min (start + chunkSize) nh) cfg.rows
    let results := starts.map (fun s => fetch_chunk env cfg.dataset s cfg.rows)
    let evsF := starts.map Ev.chunkReq
    let chunkRecs := (results.map Prod.fst).flatten
    if results.any (fun p => p.2.isSome) then
      let c := fetch_csv_download env fs
      StepOut.stop ⟨c.1, c.2.1, evsF ++ c.2.2, true, false⟩
    else
      let all1 := all ++ chunkRecs
      let start1 := start + chunkSize
      if chunkRecs.isEmpty then
        let p : FS × List Ev :=
          if all1.isEmpty then (fs, [])
          else ({ cp := some (some start1), snap := some all1 },
            [Ev.writeSnap all1, Ev.writeCp start1])
        let c := fetch_csv_download env p.1
        StepOut.stop ⟨c.1, c.2.1, evsF ++ p.2 ++ c.2.2, true, false⟩
      else
        let q := incSave cfg all1 start1 fs
        StepOut.next start1 all1 (sc1 + chunkRecs.length) q.1 (evsF ++ q.2)
  else
    let rw := min cfg.rows (nh - start)
    let t := attemptLoop env start rw 5 0
    match t.1 with
    | some recs =>
      let all1 := all ++ recs
      let start1 := start + rw
      if recs.length < rw then
        StepOut.stop (prependEvents t.2 (completeRun env cfg nh all1 fs))
      else
        let q := incSave cfg all1 start1 fs
        StepOut.next start1 all1 (sc1 + rw) q.1 (t.2 ++ q.2)
    | none =>
      let p := seqFailPersist cfg all start fs
      let c := fetch_csv_download env p.1
      StepOut.stop ⟨c.1, c.2.1, t.2 ++ p.2 ++ c.2.2, true, false⟩

/-- The `while start < nhits` loop on fuel. -/
def fetchLoop (env : Env) (cfg : Cfg) (nh : Nat) :
    Nat → Nat → List Nat → Nat → FS → RunResult
  | 0, start, all, _, fs =>
    if start < nh then ⟨all, fs, [], false, true⟩ else completeRun env cfg nh all fs
  | fuel + 1, start, all, sc, fs =>
    if start < nh then
      match loopBody env cfg nh start all sc fs with
      | StepOut.next s1 a1 c1 f1 evs => prependEvents evs (fetchLoop env cfg nh fuel s1 a1 c1 f1)
      | StepOut.stop r => r
    else completeRun env cfg nh all fs

/-- Resume logic for `les-arbres` (lines 73-87): the starting offset comes
from the checkpoint whenever one is readable; the accumulator is
preloaded from the snapshot only when the offset is positive and the
snapshot file exists.  `Env.snapFile` carries the records of a readable
snapshot; the existing-but-unparseable snapshot file, on which the bare
`pd.read_csv(save_as)` of line 86 raises out of the orchestrator, is
outside this oracle and is modelled by `resumeRead`. -/
def initLesArbres (env : Env) : Nat × List Nat :=
  let start :=
    match env.cpFile with
    | some (some k) => k
    | some none => 0
    | none => 0
  (start,
    if 0 < start then (match env.snapFile with | some r => r | none => []) else [])

/-- The resume read of lines 83-87 with the snapshot file's readability made
explicit: with a positive checkpoint offset, a missing snapshot file leaves
the accumulator empty, a readable one preloads its records, and an existing
but unparseable one makes the bare `pd.read_csv(save_as)` of line 86 raise —
there is no surrounding `try`, so the error propagates out of
`fetch_from_paris_api` and aborts the batch. -/
def resumeRead (start : Nat) (snapFile : Option (Except String (List Nat))) :
    Except String (List Nat) :=
  if 0 < start then
    match snapFile with
    | none => Except.ok []
    | some (Except.ok r) => Except.ok r
    | some (Except.error e) => Except.error e
  else Except.ok []

/-- `fetch_from_paris_api` (lines 53-182). -/
def fetch_from_paris_api (env : Env) (cfg : Cfg) : RunResult :=
  let fs0 : FS := { cp := env.cpFile, snap := env.snapFile }
  match env.probe with
  | none =>
    let c := fetch_csv_download env fs0
    ⟨c.1, c.2.1, Ev.probeReq :: c.2.2, true, false⟩
  | some nh =>
    if cfg.dataset = "les-arbres" ∧ 9000 < nh then
      let c := fetch_csv_download env fs0
      ⟨c.1, c.2.1, Ev.probeReq :: c.2.2, true, false⟩
    else
      let st := if cfg.dataset = "les-arbres" then initLesArbres env else (0, [])
      prependEvents [Ev.probeReq] (fetchLoop env cfg nh (nh + 1) st.1 st.2 st.1 fs0)

/-- Offsets of the page and chunk requests in a trace. -/
def pageOffsets (evs : List Ev) : List Nat :=
  evs.filterMap (fun e =>
    match e with
    | Ev.pageReq o _ => some o
    | Ev.chunkReq o => some o
    | _ => none)

/-- ASCII-only strings, the scope on which the float model is exact
character-for-character (CPython additionally accepts non-ASCII decimal
digits). -/
def asciiOnly (l : List Char) : Bool := l.all (fun c => c.toNat < 128)

/-- The half-ulp guard zone `(75001 - 2^-30, 75001)`: the only values whose
IEEE rounding can cross into the canonical range although the exact decimal
truncates below it (the binary64 ulp at 75001 is `2^-36`).  The two strict
rational inequalities are integerized by cross-multiplication against
`±mant * 10^ex` (only `ex < 0` can put a value strictly between integers). -/
def inGuard (ng : Bool) (mant : Nat) (ex : Int) : Bool :=
  if ng then false
  else if 0 ≤ ex then false
  else
    decide ((75001 * 2 ^ 30 - 1) * 10 ^ (-ex).toNat < mant * 2 ^ 30) &&
      decide (mant < 75001 * 10 ^ (-ex).toNat)

/-- Inputs that offer the normalizers no way into the canonical range and on
which they return (rather than raise): null, or an ASCII string whose
stripped form fails the `750`-prefix window test and whose `float()` reading
fails, is NaN, or is a finite value truncating outside 75001..75020.
Infinite readings are excluded (there `int()` raises, see
`normalize_cooling_raises`), and so is the half-ulp guard zone
`(75001 - 2^-30, 75001)`, where IEEE rounding of the exact decimal value
can land on `75001.0` and be mapped after all — the predicate is a sound
under-approximation of "cannot be mapped" under CPython float semantics. -/
def unmappable (x : Raw) : Bool :=
  match pyStrOpt x with
  | none => true
  | some s0 =>
    asciiOnly s0 && !prefixWindowAccept (stripL s0) &&
      (match pyFloat (stripL s0) with
       | none => true
       | some PyFloatVal.nan => true
       | some (PyFloatVal.inf _) => false
       | some (PyFloatVal.finite ng mant e) =>
         !(decide (75001 ≤ pyTrunc ng mant e ∧ pyTrunc ng mant e ≤ 75020)) &&
           !(inGuard ng mant e))

/-- Environment refuting C4: a checkpoint at offset 5 exists but no partial
snapshot file does; the restarted run still resumes at offset 5. -/
def envC4x : Env :=
  { probe := some 6, cpFile := some (some 5), snapFile := none,
    page := fun o _ _ => if o = 5 then some [99] else none,
    chunk := fun _ _ _ => Except.error "x",
    csv := some [0, 1, 2, 3, 4, 5] }

def cfgC4x : Cfg := { dataset := "les-arbres", rows := 1, parallel := false }

/-- Environment for the C4 witness: checkpoint offset 2, snapshot `[10, 11]`. -/
def envC4w : Env :=
  { probe := some 3, cpFile := some (some 2), snapFile := some [10, 11],
    page := fun o _ _ => if o = 2 then some [30] else none,
    chunk := fun _ _ _ => Except.error "x",
    csv := some [] }

def cfgC4w : Cfg := { dataset := "les-arbres", rows := 1, parallel := false }

/-- Environment refuting C5: a parallel `les-arbres` run over 5 records with
page size 2 receives an empty chunk and writes checkpoint offset 8 > 5, and
the failing CSV fallback leaves that checkpoint on disk at run end. -/
def envC5x : Env :=
  { probe := some 5, cpFile := none, snapFile := none,
    page := fun _ _ _ => none,
    chunk := fun _ s _ =>
      if s = 0 then Except.ok [1, 2] else if s = 2 then Except.ok [3, 4] else Except.ok [],
    csv := none }

def cfgC5x : Cfg := { dataset := "les-arbres", rows := 2, parallel := true }

/-- Environment for the C5 witness: the second page always fails, the CSV
export also fails, so the persisted checkpoint survives. -/
def envC5w : Env :=
  { probe := some 2, cpFile := none, snapFile := none,
    page := fun o _ _ => if o = 0 then some [5] else none,
    chunk := fun _ _ _ => Except.error "x",
    csv := none }

def cfgC5w : Cfg := { dataset := "les-arbres", rows := 1, parallel := false }

/-- Environment for the C6 witness: every page attempt fails and so does
the CSV export. -/
def envC6w : Env :=
  { probe := some 1, cpFile := none, snapFile := none,
    page := fun _ _ _ => none,
    chunk := fun _ _ _ => Except.error "x",
    csv := none }

def cfgC6w : Cfg := { dataset := "espaces_verts", rows := 1, parallel := false }

def envC7w : Env :=
  { probe := none, cpFile := none, snapFile := none,
    page := fun _ _ _ => none,
    chunk := fun _ _ _ => Except.error "x",
    csv := some [3, 4] }

def cfgC7w : Cfg := { dataset := "qualite-de-l-air-indice-atmo", rows := 1000, parallel := false }

/-- Environment refuting C8's "always produces an output file": probe and
CSV export both fail on a fresh filesystem. -/
def envC8x : Env :=
  { probe := none, cpFile := none, snapFile := none,
    page := fun _ _ _ => none,
    chunk := fun _ _ _ => Except.error "x",
    csv := none }

def cfgC8x : Cfg := { dataset := "espaces_verts", rows := 1000, parallel := false }

/-- Environment refuting C9 in the presence of a stale resume state:
`nhits = 0` but a checkpoint at offset 3 and a 3-record snapshot exist. -/
def envC9x : Env :=
  { probe := some 0, cpFile := some (some 3), snapFile := some [7, 8, 9],
    page := fun _ _ _ => none,
    chunk := fun _ _ _ => Except.error "x",
    csv := none }

def cfgC9x : Cfg := { dataset := "les-arbres", rows := 1, parallel := false }

def envC9w : Env :=
  { probe := some 0, cpFile := none, snapFile := none,
    page := fun _ _ _ => none,
    chunk := fun _ _ _ => Except.error "x",
    csv := some [1] }

def cfgC9w : Cfg := { dataset := "arrondissements", rows := 100, parallel := false }

def envC10w : Env :=
  { probe := none, cpFile := none, snapFile := none,
    page := fun _ _ _ => none,
    chunk := fun _ _ _ => Except.error "boom",
    csv := none }

example : normalize_cooling_arrondissement (Raw.str (toL ("75001"))) = some (toL ("75001")) := by
  decide

example : normalize_cooling_arrondissement (Raw.str (toL (" 75001 "))) = some (toL ("75001")) := by
  decide

example : normalize_cooling_arrondissement (Raw.str (toL ("075001.00"))) = some (toL ("75001")) := by
  decide

example : normalize_cooling_arrondissement (Raw.float 75001) = some (toL ("75001")) := by
  decide

example : normalize_cooling_arrondissement (Raw.str (toL ("75099"))) = none := by decide

example : normalize_cooling_arrondissement (Raw.str (toL ("Paris"))) = none := by decide

example : normalize_cooling_arrondissement Raw.null = none := by decide

example : normalize_cooling_arrondissement (Raw.str (toL ("750075"))) = some (toL ("75007")) := by
  decide

example : normalize_cooling_arrondissement (Raw.str (toL ("7.5001e4"))) = some (toL ("75001")) := by
  decide

example : normalize_cooling_arrondissement (Raw.str (toL ("75_001"))) = some (toL ("75001")) := by
  decide

example : normalize_cooling_arrondissement (Raw.str (toL ("inf"))) = none := by decide

example : normalize_cooling_raises (Raw.str (toL ("inf"))) = true := by decide

example : normalize_cooling_raises (Raw.str (toL ("-Infinity"))) = true := by decide

example : pyFloat (toL ("nan")) = some PyFloatVal.nan := by decide

example : pyFloat (toL ("1e400")) = some (PyFloatVal.inf false) := by decide

example : pyFloat (toL ("1__2")) = none := by decide

example : stripL (toL ("\x0c75001 ")) = toL ("75001") := by decide

example : normalize_cooling_arrondissement (Raw.str (toL ("7501"))) = some (toL ("7501")) := by
  decide

example : normalize_arrondissement_trees (Raw.str (toL ("75001"))) = none := by decide

example : normalize_arrondissement_trees (Raw.str (toL ("PARIS 7E ARRDT"))) =
    some (toL ("75007")) := by decide

example : normalize_arrondissement_trees (Raw.str (toL ("PARIS 1ER ARRDT"))) =
    some (toL ("75001")) := by decide

example : canonCode 1 = toL ("75001") := by decide

example : canonCode 17 = toL ("75017") := by decide

/-!
Part 3: facts about the normalizers (claims C1, C2, C3).
-/

theorem digit_dot : Char.isDigit '.' = false := by decide

theorem dropWhile_app_of_all {α : Type} (p : α → Bool) {a : List α} (b : List α)
    (h : ∀ c ∈ a, p c = true) : (a ++ b).dropWhile p = b.dropWhile p := by
  induction a with
  | nil => rfl
  | cons x xs ih =>
    simp only [List.cons_append, List.dropWhile_cons, h x (by simp)]
    exact ih (fun c hc => h c (by simp [hc]))

theorem dropWhile_cons_neg {α : Type} (p : α → Bool) {c : α} (t : List α) (h : p c = false) :
    (c :: t).dropWhile p = c :: t := by
  simp [List.dropWhile_cons, h]

theorem takeWhile_app_of_all {α : Type} (p : α → Bool) {a : List α} (b : List α)
    (h : ∀ c ∈ a, p c = true) : (a ++ b).takeWhile p = a ++ b.takeWhile p := by
  induction a with
  | nil => rfl
  | cons x xs ih =>
    simp only [List.cons_append, List.takeWhile_cons, h x (by simp)]
    simp [ih (fun c hc => h c (by simp [hc]))]

theorem takeWhile_of_all {α : Type} (p : α → Bool) {a : List α}
    (h : ∀ c ∈ a, p c = true) : a.takeWhile p = a := by
  induction a with
  | nil => rfl
  | cons x xs ih =>
    simp only [List.takeWhile_cons, h x (by simp)]
    simp [ih (fun c hc => h c (by simp [hc]))]

theorem dropWhile_of_all {α : Type} (p : α → Bool) {a : List α}
    (h : ∀ c ∈ a, p c = true) : a.dropWhile p = [] := by
  induction a with
  | nil => rfl
  | cons x xs ih =>
    simp only [List.dropWhile_cons, h x (by simp)]
    exact ih (fun c hc => h c (by simp [hc]))

/-- Leading zeros do not change the value `int` reads off a digit string. -/
theorem toNatL_zeros (q : Nat) (l : List Char) :
    toNatL (List.replicate q '0' ++ l) = toNatL l := by
  induction q with
  | zero => rfl
  | succ n ih =>
    have h0 : (fun a c => 10 * a + (c.toNat - 48)) 0 '0' = 0 := by decide
    simpa [toNatL, List.replicate_succ, List.foldl_cons, h0] using ih

theorem all_digit_replicate_zero (q : Nat) :
    ∀ c ∈ List.replicate q '0', Char.isDigit c = true := by
  intro c hc
  rw [List.eq_of_mem_replicate hc]
  decide

theorem all_ws_replicate_space (q : Nat) :
    ∀ c ∈ List.replicate q ' ', pyWs c = true := by
  intro c hc
  rw [List.eq_of_mem_replicate hc]
  decide

theorem digit_zero : Char.isDigit '0' = true := by decide

theorem digit_five : Char.isDigit '5' = true := by decide

theorem digit_seven : Char.isDigit '7' = true := by decide

/-- Stripping the space padding of a string whose first and last characters
are not whitespace. -/
theorem stripL_spacePad (j i : Nat) {core : List Char}
    (hcons : ∃ c t, core = c :: t ∧ pyWs c = false)
    (hconcat : ∃ u z, core = u ++ [z] ∧ pyWs z = false) :
    stripL (spacePad j i core) = core := by
  obtain ⟨c, t, hct, hc⟩ := hcons
  obtain ⟨u, z, huz, hz⟩ := hconcat
  have h1 : List.dropWhile pyWs (core ++ List.replicate i ' ') =
      core ++ List.replicate i ' ' := by
    rw [hct]
    exact dropWhile_cons_neg _ _ hc
  have h2 : List.dropWhile pyWs ((core ++ List.replicate i ' ').reverse) =
      core.reverse := by
    rw [List.reverse_append, List.reverse_replicate,
      dropWhile_app_of_all _ _ (all_ws_replicate_space i), huz, List.reverse_append]
    simp only [List.reverse_cons, List.reverse_nil, List.nil_append, List.singleton_append]
    exact dropWhile_cons_neg _ _ hz
  unfold stripL spacePad
  rw [List.append_assoc, dropWhile_app_of_all _ _ (all_ws_replicate_space j), h1, h2,
    List.reverse_reverse]

/-- Canonical-form inputs (with an optional zero fraction) are accepted by the
prefix test, and returned as their first five characters. -/
theorem norm_pref (a b : Char) (j i : Nat) (tail : List Char)
    (ha : a.isDigit = true) (hb : b.isDigit = true) (hbw : pyWs b = false)
    (h1 : 1 ≤ toNatL [a, b]) (h2 : toNatL [a, b] ≤ 20)
    (htail : tail = [] ∨ ∃ m, tail = '.' :: List.replicate m '0') :
    normalize_cooling_arrondissement
        (Raw.str (spacePad j i ('7' :: '5' :: '0' :: a :: b :: tail))) =
      some ['7', '5', '0', a, b] := by
  have hstrip : stripL (spacePad j i ('7' :: '5' :: '0' :: a :: b :: tail)) =
      '7' :: '5' :: '0' :: a :: b :: tail := by
    apply stripL_spacePad
    · exact ⟨'7', _, rfl, by decide⟩
    · rcases htail with rfl | ⟨m, rfl⟩
      · exact ⟨['7', '5', '0', a], b, rfl, hbw⟩
      · cases m with
        | zero => exact ⟨['7', '5', '0', a, b], '.', rfl, by decide⟩
        | succ m' =>
          refine ⟨'7' :: '5' :: '0' :: a :: b :: '.' :: List.replicate m' '0', '0', ?_, by decide⟩
          rw [List.replicate_succ']
          simp
  have hpa : prefixWindowAccept ('7' :: '5' :: '0' :: a :: b :: tail) = true := by
    unfold prefixWindowAccept sliceL
    simp [isPre, toL, isdigitL, ha, hb, h1, h2]
  simp [normalize_cooling_arrondissement, pyStrOpt, hstrip, hpa]

/-- Dropping one leading zero keeps the value `int` reads. -/
theorem toNatL_zero_cons (l : List Char) : toNatL ('0' :: l) = toNatL l := by
  simp [toNatL, List.foldl_cons]

/-- A string headed by a zero fails the `750`-prefix test. -/
theorem pref_false_zeros (k : Nat) (rest : List Char) :
    prefixWindowAccept (List.replicate (k + 1) '0' ++ rest) = false := by
  unfold prefixWindowAccept
  rw [List.replicate_succ]
  simp [isPre, toL]

/-- A digit character is not an underscore. -/
theorem not_underscore_of_digit {c : Char} (h : c.isDigit = true) : c ≠ '_' :=
  fun he => absurd (he ▸ h) (by decide)

/-- The digit-part reader consumes nothing from an empty list, whatever the
fuel. -/
theorem digitsUCore_nil (fuel : Nat) : digitsUCore fuel [] = ([], []) := by
  cases fuel <;> rfl

/-- On underscore-free input the digit-part reader is the digit span. -/
theorem digitsUCore_span : ∀ (fuel : Nat) (l : List Char), l.length ≤ fuel →
    (∀ c ∈ l, c ≠ '_') →
    digitsUCore fuel l = (l.takeWhile Char.isDigit, l.dropWhile Char.isDigit) := by
  intro fuel
  induction fuel with
  | zero =>
    intro l hl _
    have h0 : l = [] := List.eq_nil_of_length_eq_zero (Nat.le_zero.mp hl)
    subst h0
    rfl
  | succ f ih =>
    intro l hl hu
    cases l with
    | nil => rfl
    | cons c rest =>
      by_cases hc : c.isDigit = true
      · cases rest with
        | nil => simp [digitsUCore, hc, digitsUCore_nil]
        | cons r rrest =>
          cases rrest with
          | nil =>
            have hr := ih [r] (by simp at hl ⊢; omega)
              (fun e he => by
                have : e = r := by simpa using he
                exact this ▸ hu r (by simp))
            simp [digitsUCore, hc, hr, List.takeWhile_cons, List.dropWhile_cons]
          | cons d rest2 =>
            have hrne : r ≠ '_' := hu r (by simp)
            have hcond : ¬(r = '_' ∧ d.isDigit = true) := fun hq => hrne hq.1
            have hrec := ih (r :: d :: rest2) (by simp at hl ⊢; omega)
              (fun e he => hu e (by simp at he ⊢; tauto))
            simp [digitsUCore, hc, hcond, hrec, List.takeWhile_cons, List.dropWhile_cons]
      · have hcf : c.isDigit = false := by
          cases hcc : c.isDigit with
          | false => rfl
          | true => exact absurd hcc hc
        simp [digitsUCore, hcf, List.takeWhile_cons, List.dropWhile_cons]

/-- `digitsU` on underscore-free input is the digit span. -/
theorem digitsU_span (l : List Char) (hu : ∀ c ∈ l, c ≠ '_') :
    digitsU l = (l.takeWhile Char.isDigit, l.dropWhile Char.isDigit) :=
  digitsUCore_span l.length l le_rfl hu

/-- Appending `m` zeros multiplies the value `int` reads by `10 ^ m`. -/
theorem toNatL_append_zeros (l : List Char) (m : Nat) :
    toNatL (l ++ List.replicate m '0') = toNatL l * 10 ^ m := by
  induction m with
  | zero => simp [toNatL]
  | succ p ih =>
    have h1 : ∀ X : List Char, toNatL (X ++ ['0']) = 10 * toNatL X := by
      intro X
      unfold toNatL
      rw [List.foldl_append]
      simp
    rw [List.replicate_succ', ← List.append_assoc, h1, ih]
    ring

/-- `75020` is far below the IEEE overflow threshold. -/
theorem b75020_lt_overflow : 75020 < overflowBound := by decide

/-- A value `n * 10^m * 10^-m` with `n` below the threshold does not
overflow. -/
theorem overflows_scaled (n m : Nat) (h : n < overflowBound) :
    overflows (n * 10 ^ m) ((0 : Int) - (m : Int)) = false := by
  unfold overflows
  rcases Nat.eq_zero_or_pos m with hm | hm
  · subst hm
    rw [if_pos (by omega)]
    refine decide_eq_false ?_
    intro hle
    simp at hle
    omega
  · have he : ¬(0 ≤ (0 : Int) - (m : Int)) := by omega
    rw [if_neg he]
    refine decide_eq_false ?_
    intro hle
    have ht : (-((0 : Int) - (m : Int))).toNat = m := by omega
    rw [ht] at hle
    have := Nat.le_of_mul_le_mul_right hle (Nat.pow_pos (by norm_num))
    omega

/-- Truncation of the scaled integer `n * 10^m / 10^m` recovers `n`. -/
theorem pyTrunc_scaled (n m : Nat) :
    pyTrunc false (n * 10 ^ m) ((0 : Int) - (m : Int)) = Int.ofNat n := by
  simp only [pyTrunc]
  rcases Nat.eq_zero_or_pos m with hm | hm
  · subst hm
    norm_num
  · have he : ¬(0 ≤ (0 : Int) - (m : Int)) := by omega
    have ht : (-((0 : Int) - (m : Int))).toNat = m := by omega
    rw [if_neg he, ht, Nat.mul_div_cancel _ (Nat.pow_pos (by norm_num))]
    simp

/-- `float(s)` on a zero-padded canonical code with an optional zero
fraction is exactly the value of the five significant digits (as the scaled
decimal `n * 10^m * 10^-m`). -/
theorem pyFloat_zeros_core (a b : Char) (k : Nat) (tail : List Char)
    (ha : a.isDigit = true) (hb : b.isDigit = true)
    (h75b : toNatL ['7', '5', '0', a, b] ≤ 75020)
    (htail : tail = [] ∨ ∃ m, tail = '.' :: List.replicate m '0') :
    ∃ m : Nat, pyFloat (List.replicate (k + 1) '0' ++ '7' :: '5' :: '0' :: a :: b :: tail) =
      some (PyFloatVal.finite false (toNatL ['7', '5', '0', a, b] * 10 ^ m)
        ((0 : Int) - (m : Int))) := by
  have hsign : splitSign (List.replicate (k + 1) '0' ++ '7' :: '5' :: '0' :: a :: b :: tail) =
      (false, List.replicate (k + 1) '0' ++ '7' :: '5' :: '0' :: a :: b :: tail) := by
    rw [List.replicate_succ]
    simp [splitSign]
  have hcons : List.replicate (k + 1) '0' ++ '7' :: '5' :: '0' :: a :: b :: tail =
      '0' :: (List.replicate k '0' ++ '7' :: '5' :: '0' :: a :: b :: tail) := by
    rw [List.replicate_succ]
    rfl
  have hal0 : asciiLower '0' = '0' := by decide
  have hmap : (List.replicate (k + 1) '0' ++ '7' :: '5' :: '0' :: a :: b :: tail).map asciiLower =
      '0' :: ((List.replicate k '0' ++ '7' :: '5' :: '0' :: a :: b :: tail).map asciiLower) := by
    rw [hcons, List.map_cons, hal0]
  have hinf : ¬((List.replicate (k + 1) '0' ++
        '7' :: '5' :: '0' :: a :: b :: tail).map asciiLower = ['i', 'n', 'f'] ∨
      (List.replicate (k + 1) '0' ++ '7' :: '5' :: '0' :: a :: b :: tail).map asciiLower =
        ['i', 'n', 'f', 'i', 'n', 'i', 't', 'y']) := by
    rw [hmap]
    intro hor
    rcases hor with h | h <;> (injection h with h1 _; exact absurd h1 (by decide))
  have hnan : ¬((List.replicate (k + 1) '0' ++
      '7' :: '5' :: '0' :: a :: b :: tail).map asciiLower = ['n', 'a', 'n']) := by
    rw [hmap]
    intro h
    injection h with h1 _
    exact absurd h1 (by decide)
  have hlt : toNatL ['7', '5', '0', a, b] < overflowBound :=
    lt_of_le_of_lt h75b b75020_lt_overflow
  rcases htail with rfl | ⟨m, rfl⟩
  · have hall : ∀ c ∈ List.replicate (k + 1) '0' ++ '7' :: '5' :: '0' :: a :: b :: ([] : List Char),
        Char.isDigit c = true := by
      intro c hc
      rcases List.mem_append.mp hc with h | h
      · rw [List.eq_of_mem_replicate h]; decide
      · simp at h
        rcases h with rfl | rfl | rfl | rfl | rfl
        · decide
        · decide
        · decide
        · exact ha
        · exact hb
    have hu : ∀ c ∈ List.replicate (k + 1) '0' ++ '7' :: '5' :: '0' :: a :: b :: ([] : List Char),
        c ≠ '_' := fun c hc => not_underscore_of_digit (hall c hc)
    have hdig : digitsU (List.replicate (k + 1) '0' ++
        '7' :: '5' :: '0' :: a :: b :: ([] : List Char)) =
        (List.replicate (k + 1) '0' ++ '7' :: '5' :: '0' :: a :: b :: [], []) := by
      rw [digitsU_span _ hu, takeWhile_of_all _ hall, dropWhile_of_all _ hall]
    have hemp : (List.replicate (k + 1) '0' ++
        '7' :: '5' :: '0' :: a :: b :: ([] : List Char)).isEmpty = false := by
      rw [hcons]
      rfl
    refine ⟨0, ?_⟩
    have hv : toNatL (List.replicate (k + 1) '0' ++ '7' :: '5' :: '0' :: a :: b :: []) =
        toNatL ['7', '5', '0', a, b] := toNatL_zeros (k + 1) _
    have hov : overflows (toNatL ['7', '5', '0', a, b]) 0 = false := by
      have h0 := overflows_scaled (toNatL ['7', '5', '0', a, b]) 0 hlt
      simpa using h0
    simp only [pyFloat, hsign, hdig, hemp]
    rw [if_neg hinf, if_neg hnan]
    simp only [pyFloatExp, mkFinite, List.append_nil, List.length_nil, Nat.cast_zero,
      sub_zero]
    rw [hv, hov]
    norm_num
  · have hA : ∀ c ∈ (List.replicate (k + 1) '0' : List Char), Char.isDigit c = true :=
      all_digit_replicate_zero (k + 1)
    have htake : List.takeWhile Char.isDigit (List.replicate (k + 1) '0' ++
        '7' :: '5' :: '0' :: a :: b :: '.' :: List.replicate m '0') =
        List.replicate (k + 1) '0' ++ ['7', '5', '0', a, b] := by
      rw [takeWhile_app_of_all _ _ hA]
      simp [List.takeWhile_cons, digit_seven, digit_five, digit_zero, ha, hb, digit_dot]
    have hdrop : List.dropWhile Char.isDigit (List.replicate (k + 1) '0' ++
        '7' :: '5' :: '0' :: a :: b :: '.' :: List.replicate m '0') =
        '.' :: List.replicate m '0' := by
      rw [dropWhile_app_of_all _ _ hA]
      simp [List.dropWhile_cons, digit_seven, digit_five, digit_zero, ha, hb, digit_dot]
    have hu : ∀ c ∈ List.replicate (k + 1) '0' ++
        '7' :: '5' :: '0' :: a :: b :: '.' :: List.replicate m '0', c ≠ '_' := by
      intro c hc
      rcases List.mem_append.mp hc with h | h
      · rw [List.eq_of_mem_replicate h]; decide
      · simp at h
        rcases h with rfl | rfl | rfl | rfl | rfl | rfl | ⟨-, rfl⟩
        · decide
        · decide
        · decide
        · exact not_underscore_of_digit ha
        · exact not_underscore_of_digit hb
        · decide
        · decide
    have hdig : digitsU (List.replicate (k + 1) '0' ++
        '7' :: '5' :: '0' :: a :: b :: '.' :: List.replicate m '0') =
        (List.replicate (k + 1) '0' ++ ['7', '5', '0', a, b], '.' :: List.replicate m '0') := by
      rw [digitsU_span _ hu, htake, hdrop]
    have huF : ∀ c ∈ (List.replicate m '0' : List Char), c ≠ '_' :=
      fun c hc => not_underscore_of_digit (all_digit_replicate_zero m c hc)
    have hdigF : digitsU (List.replicate m '0') = (List.replicate m '0', []) := by
      rw [digitsU_span _ huF, takeWhile_of_all _ (all_digit_replicate_zero m),
        dropWhile_of_all _ (all_digit_replicate_zero m)]
    have hemp : (List.replicate (k + 1) '0' ++ ['7', '5', '0', a, b]).isEmpty = false := by
      rw [List.replicate_succ]
      rfl
    refine ⟨m, ?_⟩
    have hv : toNatL ((List.replicate (k + 1) '0' ++ ['7', '5', '0', a, b]) ++
        List.replicate m '0') = toNatL ['7', '5', '0', a, b] * 10 ^ m := by
      rw [List.append_assoc, toNatL_zeros (k + 1), toNatL_append_zeros]
    have hov := overflows_scaled (toNatL ['7', '5', '0', a, b]) m hlt
    simp only [pyFloat, hsign, hdig, hdigF, hemp]
    rw [if_neg hinf, if_neg hnan]
    simp only [Bool.false_and, pyFloatExp, mkFinite, List.length_replicate]
    rw [hv, hov]
    norm_num

/-- Zero-padded numeric inputs (with optional zero fraction) reach the
`int(float(.))` branch and are reformatted as the canonical code. -/
theorem norm_float (a b : Char) (k j i : Nat) (tail : List Char)
    (ha : a.isDigit = true) (hb : b.isDigit = true) (hbw : pyWs b = false)
    (h75a : 75001 ≤ toNatL ['7', '5', '0', a, b]) (h75b : toNatL ['7', '5', '0', a, b] ≤ 75020)
    (hrt : intToChars5 (Int.ofNat (toNatL ['7', '5', '0', a, b])) = ['7', '5', '0', a, b])
    (htail : tail = [] ∨ ∃ m, tail = '.' :: List.replicate m '0') :
    normalize_cooling_arrondissement (Raw.str (spacePad j i
        (List.replicate (k + 1) '0' ++ '7' :: '5' :: '0' :: a :: b :: tail))) =
      some ['7', '5', '0', a, b] := by
  have hstrip : stripL (spacePad j i
      (List.replicate (k + 1) '0' ++ '7' :: '5' :: '0' :: a :: b :: tail)) =
      List.replicate (k + 1) '0' ++ '7' :: '5' :: '0' :: a :: b :: tail := by
    apply stripL_spacePad
    · refine ⟨'0', List.replicate k '0' ++ '7' :: '5' :: '0' :: a :: b :: tail, ?_, by decide⟩
      rw [List.replicate_succ]
      simp
    · rcases htail with rfl | ⟨m, rfl⟩
      · exact ⟨List.replicate (k + 1) '0' ++ ['7', '5', '0', a], b, by simp, hbw⟩
      · cases m with
        | zero =>
          exact ⟨List.replicate (k + 1) '0' ++ ['7', '5', '0', a, b], '.', by simp, by decide⟩
        | succ m' =>
          refine ⟨List.replicate (k + 1) '0' ++
            ('7' :: '5' :: '0' :: a :: b :: '.' :: List.replicate m' '0'), '0', ?_, by decide⟩
          rw [List.append_assoc]
          congr 1
          rw [List.replicate_succ']
          simp
  have hpf := pref_false_zeros k ('7' :: '5' :: '0' :: a :: b :: tail)
  obtain ⟨m, hparse⟩ := pyFloat_zeros_core a b k tail ha hb h75b htail
  have htr : pyTrunc false (toNatL ['7', '5', '0', a, b] * 10 ^ m) ((0 : Int) - (m : Int)) =
      Int.ofNat (toNatL ['7', '5', '0', a, b]) := pyTrunc_scaled _ _
  rw [zero_sub] at htr
  simp [normalize_cooling_arrondissement, pyStrOpt, hstrip, hpf, hparse, htr]
  exact ⟨⟨h75a, h75b⟩, hrt⟩

/-- The two identically-written normalizers of `process_data.py` (cooling
spaces) and `load_to_db.py` agree definitionally. -/
theorem norm_db_eq_cool (x : Raw) :
    normalize_arrondissement_db x = normalize_cooling_arrondissement x := rfl

/-- Combined canonicalization behaviour for one concrete pair of district
digits; the side conditions are discharged by `decide` at each of the twenty
districts. -/
theorem c2core (a b : Char) (k m j i : Nat)
    (ha : a.isDigit = true) (hb : b.isDigit = true) (hbw : pyWs b = false)
    (h1 : 1 ≤ toNatL [a, b]) (h2 : toNatL [a, b] ≤ 20)
    (h75a : 75001 ≤ toNatL ['7', '5', '0', a, b])
    (h75b : toNatL ['7', '5', '0', a, b] ≤ 75020)
    (hrt : intToChars5 (Int.ofNat (toNatL ['7', '5', '0', a, b])) = ['7', '5', '0', a, b])
    (hfloat : normalize_cooling_arrondissement
        (Raw.float (Int.ofNat (toNatL ['7', '5', '0', a, b]))) = some ['7', '5', '0', a, b]) :
    (normalize_cooling_arrondissement (Raw.str (spacePad j i
        (List.replicate k '0' ++ '7' :: '5' :: '0' :: a :: b :: []))) = some ['7', '5', '0', a, b])
  ∧ (normalize_cooling_arrondissement (Raw.str (spacePad j i
      (List.replicate k '0' ++ '7' :: '5' :: '0' :: a :: b :: '.' :: List.replicate m '0'))) =
      some ['7', '5', '0', a, b])
  ∧ (normalize_cooling_arrondissement (Raw.float (Int.ofNat (toNatL ['7', '5', '0', a, b]))) =
      some ['7', '5', '0', a, b])
  ∧ (normalize_cooling_arrondissement (Raw.str ('7' :: '5' :: '0' :: a :: b :: [])) =
      some ['7', '5', '0', a, b])
  ∧ (normalize_arrondissement_db (Raw.str (spacePad j i
      (List.replicate k '0' ++ '7' :: '5' :: '0' :: a :: b :: []))) = some ['7', '5', '0', a, b])
  ∧ (normalize_arrondissement_db (Raw.str (spacePad j i
      (List.replicate k '0' ++ '7' :: '5' :: '0' :: a :: b :: '.' :: List.replicate m '0'))) =
      some ['7', '5', '0', a, b])
  ∧ (normalize_arrondissement_db (Raw.float (Int.ofNat (toNatL ['7', '5', '0', a, b]))) =
      some ['7', '5', '0', a, b])
  ∧ (normalize_arrondissement_db (Raw.str ('7' :: '5' :: '0' :: a :: b :: [])) =
      some ['7', '5', '0', a, b]) := by
  have hint : normalize_cooling_arrondissement (Raw.str (spacePad j i
      (List.replicate k '0' ++ '7' :: '5' :: '0' :: a :: b :: []))) =
      some ['7', '5', '0', a, b] := by
    cases k with
    | zero => simpa using norm_pref a b j i [] ha hb hbw h1 h2 (Or.inl rfl)
    | succ n => exact norm_float a b n j i [] ha hb hbw h75a h75b hrt (Or.inl rfl)
  have hflt : normalize_cooling_arrondissement (Raw.str (spacePad j i
      (List.replicate k '0' ++ '7' :: '5' :: '0' :: a :: b :: '.' :: List.replicate m '0'))) =
      some ['7', '5', '0', a, b] := by
    cases k with
    | zero =>
      simpa using norm_pref a b j i ('.' :: List.replicate m '0') ha hb hbw h1 h2 (Or.inr ⟨m, rfl⟩)
    | succ n =>
      exact norm_float a b n j i ('.' :: List.replicate m '0') ha hb hbw h75a h75b hrt
        (Or.inr ⟨m, rfl⟩)
  have hid : normalize_cooling_arrondissement (Raw.str ('7' :: '5' :: '0' :: a :: b :: [])) =
      some ['7', '5', '0', a, b] := by
    simpa [spacePad] using norm_pref a b 0 0 [] ha hb hbw h1 h2 (Or.inl rfl)
  exact ⟨hint, hflt, hfloat, hid,
    (norm_db_eq_cool _).trans hint, (norm_db_eq_cool _).trans hflt,
    (norm_db_eq_cool _).trans hfloat, (norm_db_eq_cool _).trans hid⟩

/-- C1 counterexample: on the raw input `"75001"` the tree-processing
normalizer returns Invalid while the cooling-space and database-load
normalizers return the canonical code `"75001"`, so the three stages do not
apply one and the same normalization function. -/
theorem c1_counterexample :
    normalize_arrondissement_trees (Raw.str (toL ("75001"))) = none
  ∧ normalize_cooling_arrondissement (Raw.str (toL ("75001"))) = some (toL ("75001"))
  ∧ normalize_arrondissement_db (Raw.str (toL ("75001"))) = some (toL ("75001"))
  ∧ normalize_arrondissement_trees (Raw.str (toL ("75001"))) ≠
      normalize_cooling_arrondissement (Raw.str (toL ("75001"))) := by
  refine ⟨by decide, by decide, by decide, by decide⟩

/-- C1 (amended): the cooling-space normalizer of `process_data.py` and the
normalizer applied at database load in `load_to_db.py` return the same result
on every raw district input; the tree-record normalizer is a different
function that disagrees with them (see the counterexample). -/
theorem c1_db_matches_cooling (x : Raw) :
    normalize_arrondissement_db x = normalize_cooling_arrondissement x :=
  norm_db_eq_cool x

/-- Bridge between `c2core` and the `canonCode` formulation: all digit-level
side conditions become decidable once the district number is concrete. -/
theorem c2core2 (d k m j i : Nat)
    (ha : (Nat.digitChar (d / 10)).isDigit = true)
    (hb : (Nat.digitChar (d % 10)).isDigit = true)
    (hbw : pyWs (Nat.digitChar (d % 10)) = false)
    (h1 : 1 ≤ toNatL [Nat.digitChar (d / 10), Nat.digitChar (d % 10)])
    (h2 : toNatL [Nat.digitChar (d / 10), Nat.digitChar (d % 10)] ≤ 20)
    (h75a : 75001 ≤ toNatL (canonCode d)) (h75b : toNatL (canonCode d) ≤ 75020)
    (hn : toNatL (canonCode d) = 75000 + d)
    (hrt : intToChars5 (Int.ofNat (75000 + d)) = canonCode d)
    (hfloat : normalize_cooling_arrondissement (Raw.float (Int.ofNat (75000 + d))) =
      some (canonCode d)) :
    (normalize_cooling_arrondissement (Raw.str (spacePad j i
        (List.replicate k '0' ++ canonCode d))) = some (canonCode d))
  ∧ (normalize_cooling_arrondissement (Raw.str (spacePad j i
      (List.replicate k '0' ++ canonCode d ++ '.' :: List.replicate m '0'))) =
      some (canonCode d))
  ∧ (normalize_cooling_arrondissement (Raw.float (Int.ofNat (75000 + d))) = some (canonCode d))
  ∧ (normalize_cooling_arrondissement (Raw.str (canonCode d)) = some (canonCode d))
  ∧ (normalize_arrondissement_db (Raw.str (spacePad j i
      (List.replicate k '0' ++ canonCode d))) = some (canonCode d))
  ∧ (normalize_arrondissement_db (Raw.str (spacePad j i
      (List.replicate k '0' ++ canonCode d ++ '.' :: List.replicate m '0'))) =
      some (canonCode d))
  ∧ (normalize_arrondissement_db (Raw.float (Int.ofNat (75000 + d))) = some (canonCode d))
  ∧ (normalize_arrondissement_db (Raw.str (canonCode d)) = some (canonCode d)) := by
  have hab : toNatL ['7', '5', '0', Nat.digitChar (d / 10), Nat.digitChar (d % 10)] =
      75000 + d := by simpa [canonCode] using hn
  have h75a2 : 75001 ≤ toNatL ['7', '5', '0', Nat.digitChar (d / 10), Nat.digitChar (d % 10)] := by
    simpa [canonCode] using h75a
  have h75b2 : toNatL ['7', '5', '0', Nat.digitChar (d / 10), Nat.digitChar (d % 10)] ≤ 75020 := by
    simpa [canonCode] using h75b
  have hrt2 : intToChars5 (Int.ofNat (toNatL
      ['7', '5', '0', Nat.digitChar (d / 10), Nat.digitChar (d % 10)])) =
      ['7', '5', '0', Nat.digitChar (d / 10), Nat.digitChar (d % 10)] := by
    rw [hab]
    simpa [canonCode] using hrt
  have hfloat2 : normalize_cooling_arrondissement (Raw.float (Int.ofNat (toNatL
      ['7', '5', '0', Nat.digitChar (d / 10), Nat.digitChar (d % 10)]))) =
      some ['7', '5', '0', Nat.digitChar (d / 10), Nat.digitChar (d % 10)] := by
    rw [hab]
    simpa [canonCode] using hfloat
  have hc := c2core (Nat.digitChar (d / 10)) (Nat.digitChar (d % 10)) k m j i ha hb hbw h1 h2
    h75a2 h75b2 hrt2 hfloat2
  rw [← hab]
  simp only [canonCode, List.append_assoc, List.cons_append, List.nil_append]
  exact hc

set_option maxHeartbeats 1000000 in
/-- C2: for every district number `d` in 1..20 and every zero-padded,
space-surrounded, optionally `.0…0`-suffixed rendering of the value
`75000 + d` — including the already-canonical code itself and the integral
float — both `normalize_cooling_arrondissement` and
`normalize_arrondissement_db` return the canonical five-character code, and
normalization is idempotent on canonical codes. -/
theorem c2_normalize_canonical (d : Nat) (hd1 : 1 ≤ d) (hd2 : d ≤ 20) (k m j i : Nat) :
    (normalize_cooling_arrondissement (Raw.str (spacePad j i
        (List.replicate k '0' ++ canonCode d))) = some (canonCode d))
  ∧ (normalize_cooling_arrondissement (Raw.str (spacePad j i
      (List.replicate k '0' ++ canonCode d ++ '.' :: List.replicate m '0'))) =
      some (canonCode d))
  ∧ (normalize_cooling_arrondissement (Raw.float (Int.ofNat (75000 + d))) = some (canonCode d))
  ∧ (normalize_cooling_arrondissement (Raw.str (canonCode d)) = some (canonCode d))
  ∧ (normalize_arrondissement_db (Raw.str (spacePad j i
      (List.replicate k '0' ++ canonCode d))) = some (canonCode d))
  ∧ (normalize_arrondissement_db (Raw.str (spacePad j i
      (List.replicate k '0' ++ canonCode d ++ '.' :: List.replicate m '0'))) =
      some (canonCode d))
  ∧ (normalize_arrondissement_db (Raw.float (Int.ofNat (75000 + d))) = some (canonCode d))
  ∧ (normalize_arrondissement_db (Raw.str (canonCode d)) = some (canonCode d)) := by
  interval_cases d <;> (apply c2core2 <;> decide)

/-- C2 witness: district 1, one leading zero, one space each side. -/
theorem c2_witness :
    normalize_cooling_arrondissement (Raw.str (spacePad 1 1
        (List.replicate 1 '0' ++ canonCode 1))) = some (canonCode 1) :=
  (c2_normalize_canonical 1 (by decide) (by decide) 1 0 1 1).1

/-- C3 counterexample, both failure modes of the claim.  `"750075"` has
numeric value 750075, far outside 75001..75020, and is not any canonical
code, yet the normalizer returns the best-guess canonical code `"75007"`
taken from its first five characters instead of Invalid.  And `"inf"` is
not rejected by classification: `float("inf")` succeeds, so `int()` raises
`OverflowError`, which `except (ValueError, TypeError)` does not catch —
rejection by a raised error, not a classification outcome. -/
theorem c3_counterexample :
    normalize_cooling_arrondissement (Raw.str (toL ("750075"))) = some (toL ("75007"))
  ∧ normalize_arrondissement_db (Raw.str (toL ("750075"))) = some (toL ("75007"))
  ∧ pyFloat (toL ("750075")) = some (PyFloatVal.finite false 750075 0)
  ∧ ¬(75001 ≤ (750075 : Int) ∧ (750075 : Int) ≤ 75020)
  ∧ ((List.range 21).all (fun d => decide (toL ("750075") ≠ canonCode d))) = true
  ∧ pyFloat (toL ("inf")) = some (PyFloatVal.inf false)
  ∧ normalize_cooling_raises (Raw.str (toL ("inf"))) = true := by
  refine ⟨by decide, by decide, by decide, by decide, by decide, by decide, by decide⟩

/-- C3 (amended): null input, and every ASCII input whose stripped string
fails the `750`-prefix window test and whose CPython `float()` reading
fails, is NaN, or is finite with truncation outside 75001..75020 (away from
the half-ulp guard zone just below 75001), is classified Invalid (`none`)
as an ordinary return value by both normalizers — including `"75099"`,
`"Paris"`, and null.  Excluded, per the counterexample: prefix-window
inputs, canonicalized by truncation even out of range (`"750075"` to
`"75007"`), and inputs reading as infinity, on which `int()` raises an
uncaught `OverflowError` instead of classifying. -/
theorem c3_unmappable_invalid (x : Raw) (h : unmappable x = true) :
    normalize_cooling_arrondissement x = none ∧ normalize_arrondissement_db x = none := by
  have hc : normalize_cooling_arrondissement x = none := by
    unfold normalize_cooling_arrondissement
    unfold unmappable at h
    cases hs : pyStrOpt x with
    | none => rfl
    | some s0 =>
      rw [hs] at h
      simp only [Bool.and_eq_true, Bool.not_eq_true'] at h
      obtain ⟨⟨_, hp⟩, hrest⟩ := h
      simp only [hp, if_false]
      cases hv : pyFloat (stripL s0) with
      | none => rfl
      | some val =>
        rw [hv] at hrest
        cases val with
        | nan => rfl
        | inf ng => exact absurd hrest (by simp)
        | finite ng mant e =>
          simp only [Bool.and_eq_true, Bool.not_eq_true', decide_eq_false_iff_not] at hrest
          simp [hrest.1]
  exact ⟨hc, (norm_db_eq_cool x).trans hc⟩

/-- C3 witness: the three inputs named by the claim. -/
theorem c3_witness :
    unmappable (Raw.str (toL ("75099"))) = true
  ∧ normalize_cooling_arrondissement (Raw.str (toL ("75099"))) = none
  ∧ unmappable (Raw.str (toL ("Paris"))) = true
  ∧ normalize_cooling_arrondissement (Raw.str (toL ("Paris"))) = none
  ∧ unmappable Raw.null = true
  ∧ normalize_arrondissement_db Raw.null = none :=
  ⟨by decide, (c3_unmappable_invalid _ (by decide)).1, by decide,
   (c3_unmappable_invalid _ (by decide)).1, by decide,
   (c3_unmappable_invalid _ (by decide)).2⟩

/-!
Part 4: trace and state lemmas for the fetch orchestrator (claims C4-C10).
-/

theorem pageOffsets_append (a b : List Ev) :
    pageOffsets (a ++ b) = pageOffsets a ++ pageOffsets b := by
  unfold pageOffsets
  exact List.filterMap_append _ _ _

theorem pageOffsets_csv (env : Env) (fs : FS) :
    pageOffsets (fetch_csv_download env fs).2.2 = [] := by
  unfold fetch_csv_download
  cases env.csv with
  | none => rfl
  | some recs =>
    by_cases h : fs.cp.isSome <;> simp [h, pageOffsets, List.filterMap_cons]

theorem no_writeCp_csv (env : Env) (fs : FS) (o : Nat) :
    Ev.writeCp o ∉ (fetch_csv_download env fs).2.2 := by
  unfold fetch_csv_download
  cases env.csv with
  | none => simp
  | some recs =>
    by_cases h : fs.cp.isSome <;> simp [h]

theorem attemptLoop_mem (env : Env) (off rw : Nat) :
    ∀ rem a, ∀ e ∈ (attemptLoop env off rw rem a).2,
      (∃ a', e = Ev.pageReq off a' ∧ a' < a + rem) ∨ e = Ev.sleepSec 2 ∨ e = Ev.sleepShort := by
  intro rem
  induction rem with
  | zero =>
    intro a e he
    simp [attemptLoop] at he
  | succ n ih =>
    intro a e he
    cases hp : env.page off rw a with
    | some recs =>
      simp [attemptLoop, hp] at he
      rcases he with rfl | rfl
      · exact Or.inl ⟨a, rfl, by omega⟩
      · exact Or.inr (Or.inr rfl)
    | none =>
      simp only [attemptLoop, hp] at he
      split at he
      · simp at he
        subst he
        exact Or.inl ⟨a, rfl, by omega⟩
      · simp at he
        rcases he with rfl | rfl | hmem
        · exact Or.inl ⟨a, rfl, by omega⟩
        · exact Or.inr (Or.inl rfl)
        · rcases ih (a + 1) e hmem with ⟨a', rfl, hlt⟩ | h | h
          · exact Or.inl ⟨a', rfl, by omega⟩
          · exact Or.inr (Or.inl h)
          · exact Or.inr (Or.inr h)

theorem pageOffsets_attemptLoop (env : Env) (off rw : Nat) (rem a : Nat) :
    ∀ o ∈ pageOffsets (attemptLoop env off rw rem a).2, o = off := by
  intro o ho
  unfold pageOffsets at ho
  rcases List.mem_filterMap.mp ho with ⟨e, he, hfe⟩
  rcases attemptLoop_mem env off rw rem a e he with ⟨a', rfl, _⟩ | rfl | rfl
  · simp at hfe
    omega
  · simp at hfe
  · simp at hfe

theorem no_writeCp_attemptLoop (env : Env) (off rw rem a o : Nat) :
    Ev.writeCp o ∉ (attemptLoop env off rw rem a).2 := by
  intro hmem
  rcases attemptLoop_mem env off rw rem a _ hmem with ⟨a', he, _⟩ | he | he <;> simp at he

theorem rangeStep_ge (a b s : Nat) : ∀ x ∈ rangeStep a b s, a ≤ x := by
  intro x hx
  unfold rangeStep at hx
  rcases List.mem_map.mp hx with ⟨idx, _, rfl⟩
  omega

theorem pageOffsets_chunkReqs (l : List Nat) :
    pageOffsets (l.map Ev.chunkReq) = l := by
  induction l with
  | nil => rfl
  | cons x xs ih => simp [pageOffsets, List.filterMap_cons] at ih ⊢; exact ih

theorem pageOffsets_incSave (cfg : Cfg) (all : List Nat) (start : Nat) (fs : FS) :
    pageOffsets (incSave cfg all start fs).2 = [] := by
  unfold incSave
  split <;> simp [pageOffsets, List.filterMap_cons]

theorem pageOffsets_seqFailPersist (cfg : Cfg) (all : List Nat) (start : Nat) (fs : FS) :
    pageOffsets (seqFailPersist cfg all start fs).2 = [] := by
  unfold seqFailPersist
  split
  · rfl
  · split <;> simp [pageOffsets, List.filterMap_cons]

theorem pageOffsets_completeRun (env : Env) (cfg : Cfg) (nh : Nat) (all : List Nat) (fs : FS) :
    pageOffsets (completeRun env cfg nh all fs).events = [] := by
  simp only [completeRun]
  split <;> split <;>
    first
      | rfl
      | (rw [pageOffsets_append, pageOffsets_csv]; rfl)

theorem pageReq_mem_offsets {o a : Nat} {evs : List Ev} (h : Ev.pageReq o a ∈ evs) :
    o ∈ pageOffsets evs :=
  List.mem_filterMap.mpr ⟨_, h, rfl⟩

theorem chunkReq_mem_offsets {o : Nat} {evs : List Ev} (h : Ev.chunkReq o ∈ evs) :
    o ∈ pageOffsets evs :=
  List.mem_filterMap.mpr ⟨_, h, rfl⟩

theorem not_pageReq_of_offsets_nil {o a : Nat} {evs : List Ev}
    (h : pageOffsets evs = []) : Ev.pageReq o a ∉ evs := by
  intro hm
  have := pageReq_mem_offsets hm
  rw [h] at this
  simp at this

/-- On success the CSV fallback stores the export and clears the checkpoint;
on failure it changes nothing and returns the empty frame. -/
theorem fetch_csv_download_cases (env : Env) (fs : FS) :
    (∀ recs, env.csv = some recs →
      (fetch_csv_download env fs).1 = recs
    ∧ (fetch_csv_download env fs).2.1 = { cp := none, snap := some recs })
  ∧ (env.csv = none → fetch_csv_download env fs = ([], fs, [Ev.csvReq])) := by
  constructor
  · intro recs hr
    unfold fetch_csv_download
    rw [hr]
    exact ⟨rfl, rfl⟩
  · intro hr
    unfold fetch_csv_download
    rw [hr]

theorem no_writeCp_chunkReqs (l : List Nat) (o : Nat) :
    Ev.writeCp o ∉ l.map Ev.chunkReq := by
  intro hm
  rcases List.mem_map.mp hm with ⟨x, _, hx⟩
  simp at hx

theorem writeCp_incSave (cfg : Cfg) (all : List Nat) (st : Nat) (fs : FS) (o : Nat)
    (h : Ev.writeCp o ∈ (incSave cfg all st fs).2) : o = st := by
  unfold incSave at h
  split at h
  · simp at h
    exact h
  · simp at h

theorem writeCp_seqFailPersist (cfg : Cfg) (all : List Nat) (st : Nat) (fs : FS) (o : Nat)
    (h : Ev.writeCp o ∈ (seqFailPersist cfg all st fs).2) : o = st := by
  unfold seqFailPersist at h
  split at h
  · simp at h
  · split at h <;> simp at h
    exact h

theorem no_writeCp_completeRun (env : Env) (cfg : Cfg) (nh : Nat) (all : List Nat) (fs : FS)
    (o : Nat) : Ev.writeCp o ∉ (completeRun env cfg nh all fs).events := by
  intro hm
  simp only [completeRun] at hm
  split at hm
  case isTrue hlen =>
    dsimp only at hm
    rcases List.mem_append.mp hm with h | h
    · split at h <;> simp at h
    · exact no_writeCp_csv _ _ _ h
  case isFalse hlen =>
    dsimp only at hm
    split at hm <;> simp at hm

/-- Exit-path facts: trace, state and dataframe of `completeRun`. -/
theorem completeRun_facts (env : Env) (cfg : Cfg) (nh : Nat) (all : List Nat) (fs : FS) :
    ((completeRun env cfg nh all fs).usedFallback = false →
      (completeRun env cfg nh all fs).df = all
    ∧ (completeRun env cfg nh all fs).fs.snap = some all
    ∧ (cfg.dataset = "les-arbres" → (completeRun env cfg nh all fs).fs.cp = none))
  ∧ (∀ recs, env.csv = some recs → (completeRun env cfg nh all fs).usedFallback = true →
      (completeRun env cfg nh all fs).fs = { cp := none, snap := some recs }
    ∧ (completeRun env cfg nh all fs).df = recs)
  ∧ ((completeRun env cfg nh all fs).usedFallback = true →
      Ev.csvReq ∈ (completeRun env cfg nh all fs).events)
  ∧ (completeRun env cfg nh all fs).fuelOut = false := by
  simp only [completeRun]
  split
  case isTrue hlen =>
    split
    case isTrue hg =>
      refine ⟨by intro h; simp at h, ?_, ?_, rfl⟩
      · intro recs hr _
        simp [fetch_csv_download, hr]
      · intro _
        simp only [fetch_csv_download]
        cases env.csv <;> simp
    case isFalse hg =>
      refine ⟨by intro h; simp at h, ?_, ?_, rfl⟩
      · intro recs hr _
        simp [fetch_csv_download, hr]
      · intro _
        simp only [fetch_csv_download]
        cases env.csv <;> simp
  case isFalse hlen =>
    split
    case isTrue hg =>
      exact ⟨fun _ => ⟨rfl, rfl, fun _ => rfl⟩, fun recs hr h => by simp at h,
        fun h => by simp at h, rfl⟩
    case isFalse hg =>
      refine ⟨fun _ => ⟨rfl, rfl, fun hds => ?_⟩, fun recs hr h => by simp at h,
        fun h => by simp at h, rfl⟩
      have hc : ¬fs.cp.isSome = true := fun hcp => hg ⟨hds, hcp⟩
      simp only [Option.isSome] at hc
      dsimp only
      cases hfs : fs.cp with
      | none => rfl
      | some v =>
        rw [hfs] at hc
        simp at hc

/-- Facts about a loop iteration that continues: the offset strictly
advances (for positive page size), new requests sit at or above the old
offset, the accumulator only grows, attempt indices stay below 5, and in
sequential mode any checkpoint written records an offset at most `nh`. -/
theorem loopBody_next_facts (env : Env) (cfg : Cfg) (nh start : Nat) (all : List Nat)
    (sc : Nat) (fs : FS) (s1 : Nat) (a1 : List Nat) (c1 : Nat) (f1 : FS) (evs : List Ev)
    (hlt : start < nh)
    (heq : loopBody env cfg nh start all sc fs = StepOut.next s1 a1 c1 f1 evs) :
    start ≤ s1
  ∧ (1 ≤ cfg.rows → start + 1 ≤ s1)
  ∧ (∀ o ∈ pageOffsets evs, start ≤ o)
  ∧ (∃ d, a1 = all ++ d)
  ∧ (∀ o a, Ev.pageReq o a ∈ evs → a < 5)
  ∧ (cfg.parallel = false → ∀ o, Ev.writeCp o ∈ evs → o ≤ nh) := by
  simp only [loopBody] at heq
  split at heq
  case isTrue hguard =>
    split at heq
    case isTrue herr => exact StepOut.noConfusion heq
    case isFalse herr =>
      split at heq
      case isTrue hempty => exact StepOut.noConfusion heq
      case isFalse hempty =>
        injection heq with h1 h2 h3 h4 h5
        subst h1 h2 h3 h4 h5
        refine ⟨by omega, by intro h; omega, ?_, ⟨_, rfl⟩, ?_, ?_⟩
        · intro o ho
          rw [pageOffsets_append, pageOffsets_chunkReqs, pageOffsets_incSave] at ho
          simp at ho
          exact rangeStep_ge _ _ _ o ho
        · intro o a hmem
          rcases List.mem_append.mp hmem with h | h
          · rcases List.mem_map.mp h with ⟨x, _, hx⟩
            simp at hx
          · exact absurd h (not_pageReq_of_offsets_nil (pageOffsets_incSave _ _ _ _))
        · intro hpar
          rw [hpar] at hguard
          simp at hguard
  case isFalse hguard =>
    split at heq
    case h_1 recs hrec =>
      split at heq
      case isTrue hshort => exact StepOut.noConfusion heq
      case isFalse hshort =>
        injection heq with h1 h2 h3 h4 h5
        subst h1 h2 h3 h4 h5
        refine ⟨by omega, by intro h; omega, ?_, ⟨_, rfl⟩, ?_, ?_⟩
        · intro o ho
          rw [pageOffsets_append, pageOffsets_incSave] at ho
          simp at ho
          exact le_of_eq (pageOffsets_attemptLoop env start _ 5 0 o ho).symm
        · intro o a hmem
          rcases List.mem_append.mp hmem with h | h
          · rcases attemptLoop_mem env start _ 5 0 _ h with ⟨a', ha', hlt5⟩ | h' | h'
            · injection ha' with e1 e2
              omega
            · simp at h'
            · simp at h'
          · exact absurd h (not_pageReq_of_offsets_nil (pageOffsets_incSave _ _ _ _))
        · intro _ o hmem
          rcases List.mem_append.mp hmem with h | h
          · exact absurd h (no_writeCp_attemptLoop env start _ 5 0 o)
          · have := writeCp_incSave _ _ _ _ _ h
            omega
    case h_2 hrec => exact StepOut.noConfusion heq

/-- Facts about a loop iteration that terminates the run: its requests sit
at or above the current offset, a non-fallback exit snapshots exactly the
accumulated records (deleting the checkpoint for `les-arbres`), a fallback
exit with a successful export stores the export and clears the checkpoint,
attempt indices stay below 5, and in sequential mode any checkpoint written
records an offset at most `nh`. -/
theorem loopBody_stop_facts (env : Env) (cfg : Cfg) (nh start : Nat) (all : List Nat)
    (sc : Nat) (fs : FS) (r : RunResult)
    (hlt : start < nh)
    (heq : loopBody env cfg nh start all sc fs = StepOut.stop r) :
    (∀ o ∈ pageOffsets r.events, start ≤ o)
  ∧ (r.usedFallback = false →
      (∃ d, r.df = all ++ d) ∧ r.fs.snap = some r.df
    ∧ (cfg.dataset = "les-arbres" → r.fs.cp = none))
  ∧ (∀ recs, env.csv = some recs → r.usedFallback = true →
      r.fs = { cp := none, snap := some recs } ∧ r.df = recs)
  ∧ (∀ o a, Ev.pageReq o a ∈ r.events → a < 5)
  ∧ (cfg.parallel = false → ∀ o, Ev.writeCp o ∈ r.events → o ≤ nh)
  ∧ r.fuelOut = false := by
  simp only [loopBody] at heq
  split at heq
  case isTrue hguard =>
    have hpar : ∀ p : Prop, cfg.parallel = false → p := by
      intro p hp
      rw [hp] at hguard
      simp at hguard
    split at heq
    case isTrue herr =>
      injection heq with h
      subst h
      refine ⟨?_, by intro h; simp at h, ?_, ?_, fun hp => hpar _ hp, rfl⟩
      · intro o ho
        dsimp only at ho
        rw [pageOffsets_append, pageOffsets_chunkReqs, pageOffsets_csv] at ho
        simp at ho
        exact rangeStep_ge _ _ _ o ho
      · intro recs hr _
        exact ⟨((fetch_csv_download_cases env fs).1 recs hr).2,
          ((fetch_csv_download_cases env fs).1 recs hr).1⟩
      · intro o a hmem
        dsimp only at hmem
        rcases List.mem_append.mp hmem with h | h
        · rcases List.mem_map.mp h with ⟨x, _, hx⟩
          simp at hx
        · exact absurd h (not_pageReq_of_offsets_nil (pageOffsets_csv _ _))
    case isFalse herr =>
      split at heq
      case isTrue hempty =>
        injection heq with h
        subst h
        refine ⟨?_, by intro h; simp at h, ?_, ?_, fun hp => hpar _ hp, rfl⟩
        · intro o ho
          dsimp only at ho
          rw [pageOffsets_append, pageOffsets_append, pageOffsets_csv] at ho
          rw [pageOffsets_chunkReqs] at ho
          simp at ho
          rcases ho with ho | ho
          · exact rangeStep_ge _ _ _ o ho
          · split at ho <;> simp [pageOffsets, List.filterMap_cons] at ho
        · intro recs hr _
          exact ⟨((fetch_csv_download_cases env _).1 recs hr).2,
            ((fetch_csv_download_cases env _).1 recs hr).1⟩
        · intro o a hmem
          dsimp only at hmem
          rcases List.mem_append.mp hmem with h | h
          · rcases List.mem_append.mp h with h2 | h2
            · rcases List.mem_map.mp h2 with ⟨x, _, hx⟩
              simp at hx
            · split at h2 <;> simp at h2
          · exact absurd h (not_pageReq_of_offsets_nil (pageOffsets_csv _ _))
      case isFalse hempty => exact StepOut.noConfusion heq
  case isFalse hguard =>
    split at heq
    case h_1 recs hrec =>
      split at heq
      case isTrue hshort =>
        injection heq with h
        subst h
        have hcr := completeRun_facts env cfg nh (all ++ recs) fs
        refine ⟨?_, ?_, ?_, ?_, ?_, hcr.2.2.2⟩
        · intro o ho
          simp only [prependEvents] at ho
          rw [pageOffsets_append, pageOffsets_completeRun] at ho
          simp at ho
          exact le_of_eq (pageOffsets_attemptLoop env start _ 5 0 o ho).symm
        · intro hf
          simp only [prependEvents] at hf ⊢
          rcases hcr.1 hf with ⟨hdf, hsnap, hcp⟩
          exact ⟨⟨recs, hdf⟩, by rw [hdf]; exact hsnap, hcp⟩
        · intro recs2 hr hf
          simp only [prependEvents] at hf ⊢
          exact hcr.2.1 recs2 hr hf
        · intro o a hmem
          simp only [prependEvents] at hmem
          rcases List.mem_append.mp hmem with h | h
          · rcases attemptLoop_mem env start _ 5 0 _ h with ⟨a', ha', hlt5⟩ | h' | h'
            · injection ha' with e1 e2
              omega
            · simp at h'
            · simp at h'
          · exact absurd h (not_pageReq_of_offsets_nil (pageOffsets_completeRun _ _ _ _ _))
        · intro _ o hmem
          simp only [prependEvents] at hmem
          rcases List.mem_append.mp hmem with h | h
          · exact absurd h (no_writeCp_attemptLoop env start _ 5 0 o)
          · exact absurd h (no_writeCp_completeRun _ _ _ _ _ o)
      case isFalse hshort => exact StepOut.noConfusion heq
    case h_2 hrec =>
      injection heq with h
      subst h
      refine ⟨?_, by intro h; simp at h, ?_, ?_, ?_, rfl⟩
      · intro o ho
        dsimp only at ho
        rw [pageOffsets_append, pageOffsets_append, pageOffsets_seqFailPersist,
          pageOffsets_csv] at ho
        simp at ho
        exact le_of_eq (pageOffsets_attemptLoop env start _ 5 0 o ho).symm
      · intro recs hr _
        exact ⟨((fetch_csv_download_cases env _).1 recs hr).2,
          ((fetch_csv_download_cases env _).1 recs hr).1⟩
      · intro o a hmem
        dsimp only at hmem
        rcases List.mem_append.mp hmem with h | h
        · rcases List.mem_append.mp h with h2 | h2
          · rcases attemptLoop_mem env start _ 5 0 _ h2 with ⟨a', ha', hlt5⟩ | h' | h'
            · injection ha' with e1 e2
              omega
            · simp at h'
            · simp at h'
          · exact absurd h2 (not_pageReq_of_offsets_nil (pageOffsets_seqFailPersist _ _ _ _))
        · exact absurd h (not_pageReq_of_offsets_nil (pageOffsets_csv _ _))
      · intro _ o hmem
        dsimp only at hmem
        rcases List.mem_append.mp hmem with h | h
        · rcases List.mem_append.mp h with h2 | h2
          · exact absurd h2 (no_writeCp_attemptLoop env start _ 5 0 o)
          · have := writeCp_seqFailPersist _ _ _ _ _ h2
            omega
        · exact absurd h (no_writeCp_csv _ _ _)

theorem prependEvents_df (evs : List Ev) (r : RunResult) : (prependEvents evs r).df = r.df := rfl

theorem prependEvents_fs (evs : List Ev) (r : RunResult) : (prependEvents evs r).fs = r.fs := rfl

theorem prependEvents_fb (evs : List Ev) (r : RunResult) :
    (prependEvents evs r).usedFallback = r.usedFallback := rfl

theorem prependEvents_fuel (evs : List Ev) (r : RunResult) :
    (prependEvents evs r).fuelOut = r.fuelOut := rfl

theorem prependEvents_events (evs : List Ev) (r : RunResult) :
    (prependEvents evs r).events = evs ++ r.events := rfl

/-- The six run invariants, specialised to a loop exit through `completeRun`. -/
theorem completeRun_block (env : Env) (cfg : Cfg) (nh start : Nat) (all : List Nat) (fs : FS) :
    (∀ o ∈ pageOffsets (completeRun env cfg nh all fs).events, start ≤ o)
  ∧ ((completeRun env cfg nh all fs).usedFallback = false →
      (∃ d, (completeRun env cfg nh all fs).df = all ++ d)
    ∧ ((completeRun env cfg nh all fs).fuelOut = false →
        (completeRun env cfg nh all fs).fs.snap = some (completeRun env cfg nh all fs).df
      ∧ (cfg.dataset = "les-arbres" → (completeRun env cfg nh all fs).fs.cp = none)))
  ∧ (∀ recs, env.csv = some recs → (completeRun env cfg nh all fs).usedFallback = true →
      (completeRun env cfg nh all fs).fs = { cp := none, snap := some recs }
    ∧ (completeRun env cfg nh all fs).df = recs)
  ∧ (∀ o a, Ev.pageReq o a ∈ (completeRun env cfg nh all fs).events → a < 5)
  ∧ (cfg.parallel = false → ∀ o, Ev.writeCp o ∈ (completeRun env cfg nh all fs).events → o ≤ nh)
  ∧ (completeRun env cfg nh all fs).fuelOut = false := by
  obtain ⟨c1, c2, c3, c4⟩ := completeRun_facts env cfg nh all fs
  refine ⟨?_, ?_, c2, ?_, ?_, c4⟩
  · intro o ho
    rw [pageOffsets_completeRun] at ho
    simp at ho
  · intro hf
    rcases c1 hf with ⟨hdf, hsnap, hcp⟩
    exact ⟨⟨[], by rw [hdf, List.append_nil]⟩, fun _ => ⟨by rw [hdf]; exact hsnap, hcp⟩⟩
  · intro o a hmem
    exact absurd hmem (not_pageReq_of_offsets_nil (pageOffsets_completeRun _ _ _ _ _))
  · intro _ o hmem
    exact absurd hmem (no_writeCp_completeRun _ _ _ _ _ o)

/-- Combined invariants of the pagination loop, by induction on fuel:
requests never go below the starting offset; a non-fallback exit returns an
extension of the accumulator whose snapshot it stored (clearing the
checkpoint for `les-arbres`); a fallback exit with a successful export
stores and returns the export with the checkpoint cleared; every page fetch
uses an attempt index below 5; sequential checkpoint writes stay at or
below `nh`; and fuel `≥ nh - start` suffices for positive page size. -/
theorem fetchLoop_facts (env : Env) (cfg : Cfg) (nh : Nat) :
    ∀ fuel start all sc fs,
      (∀ o ∈ pageOffsets (fetchLoop env cfg nh fuel start all sc fs).events, start ≤ o)
    ∧ ((fetchLoop env cfg nh fuel start all sc fs).usedFallback = false →
        (∃ d, (fetchLoop env cfg nh fuel start all sc fs).df = all ++ d)
      ∧ ((fetchLoop env cfg nh fuel start all sc fs).fuelOut = false →
          (fetchLoop env cfg nh fuel start all sc fs).fs.snap =
            some (fetchLoop env cfg nh fuel start all sc fs).df
        ∧ (cfg.dataset = "les-arbres" →
            (fetchLoop env cfg nh fuel start all sc fs).fs.cp = none)))
    ∧ (∀ recs, env.csv = some recs →
        (fetchLoop env cfg nh fuel start all sc fs).usedFallback = true →
        (fetchLoop env cfg nh fuel start all sc fs).fs = { cp := none, snap := some recs }
      ∧ (fetchLoop env cfg nh fuel start all sc fs).df = recs)
    ∧ (∀ o a, Ev.pageReq o a ∈ (fetchLoop env cfg nh fuel start all sc fs).events → a < 5)
    ∧ (cfg.parallel = false →
        ∀ o, Ev.writeCp o ∈ (fetchLoop env cfg nh fuel start all sc fs).events → o ≤ nh)
    ∧ (1 ≤ cfg.rows → nh - start ≤ fuel →
        (fetchLoop env cfg nh fuel start all sc fs).fuelOut = false) := by
  intro fuel
  induction fuel with
  | zero =>
    intro start all sc fs
    by_cases hlt : start < nh
    · have hunf : fetchLoop env cfg nh 0 start all sc fs = ⟨all, fs, [], false, true⟩ := by
        simp [fetchLoop, hlt]
      rw [hunf]
      refine ⟨?_, ?_, ?_, ?_, ?_, ?_⟩
      · intro o ho
        simp [pageOffsets] at ho
      · intro _
        exact ⟨⟨[], by simp⟩, by intro h; simp at h⟩
      · intro recs _ h
        simp at h
      · intro o a hmem
        simp at hmem
      · intro _ o hmem
        simp at hmem
      · intro _ hle
        omega
    · have hunf : fetchLoop env cfg nh 0 start all sc fs = completeRun env cfg nh all fs := by
        simp [fetchLoop, hlt]
      rw [hunf]
      obtain ⟨b1, b2, b3, b4, b5, b6⟩ := completeRun_block env cfg nh start all fs
      exact ⟨b1, b2, b3, b4, b5, fun _ _ => b6⟩
  | succ fuel ih =>
    intro start all sc fs
    by_cases hlt : start < nh
    · cases hlb : loopBody env cfg nh start all sc fs with
      | next s1 a1 c1 f1 evs =>
        have hunf : fetchLoop env cfg nh (fuel + 1) start all sc fs =
            prependEvents evs (fetchLoop env cfg nh fuel s1 a1 c1 f1) := by
          simp [fetchLoop, hlt, hlb]
        rw [hunf]
        obtain ⟨n1, n2, n3, n4, n5, n6⟩ :=
          loopBody_next_facts env cfg nh start all sc fs s1 a1 c1 f1 evs hlt hlb
        obtain ⟨i1, i2, i3, i4, i5, i6⟩ := ih s1 a1 c1 f1
        rw [prependEvents_df, prependEvents_fs, prependEvents_fb, prependEvents_fuel,
          prependEvents_events]
        refine ⟨?_, ?_, i3, ?_, ?_, ?_⟩
        · intro o ho
          rw [pageOffsets_append] at ho
          rcases List.mem_append.mp ho with h | h
          · exact n3 o h
          · exact le_trans n1 (i1 o h)
        · intro hf
          rcases i2 hf with ⟨⟨d2, hd2⟩, hrest⟩
          rcases n4 with ⟨d1, hd1⟩
          exact ⟨⟨d1 ++ d2, by rw [hd2, hd1, List.append_assoc]⟩, hrest⟩
        · intro o a hmem
          rcases List.mem_append.mp hmem with h | h
          · exact n5 o a h
          · exact i4 o a h
        · intro hpar o hmem
          rcases List.mem_append.mp hmem with h | h
          · exact n6 hpar o h
          · exact i5 hpar o h
        · intro hrows hle
          exact i6 hrows (by have := n2 hrows; omega)
      | stop r =>
        have hunf : fetchLoop env cfg nh (fuel + 1) start all sc fs = r := by
          simp [fetchLoop, hlt, hlb]
        rw [hunf]
        obtain ⟨s1f, s2f, s3f, s4f, s5f, s6f⟩ :=
          loopBody_stop_facts env cfg nh start all sc fs r hlt hlb
        refine ⟨s1f, ?_, s3f, s4f, s5f, fun _ _ => s6f⟩
        intro hf
        rcases s2f hf with ⟨hd, hsnap, hcp⟩
        exact ⟨hd, fun _ => ⟨hsnap, hcp⟩⟩
    · have hunf : fetchLoop env cfg nh (fuel + 1) start all sc fs =
          completeRun env cfg nh all fs := by
        simp [fetchLoop, hlt]
      rw [hunf]
      obtain ⟨b1, b2, b3, b4, b5, b6⟩ := completeRun_block env cfg nh start all fs
      exact ⟨b1, b2, b3, b4, b5, fun _ _ => b6⟩

theorem pageOffsets_probe (evs : List Ev) :
    pageOffsets (Ev.probeReq :: evs) = pageOffsets evs := by
  simp [pageOffsets, List.filterMap_cons]

/-- C4 counterexample: with checkpoint `{offset: 5}` on disk and the partial
snapshot file absent, the orchestrator does not restart at offset 0 with an
empty accumulator — its only page request is at offset 5. -/
theorem c4_counterexample :
    envC4x.cpFile = some (some 5)
  ∧ envC4x.snapFile = none
  ∧ pageOffsets (fetch_from_paris_api envC4x cfgC4x).events = [5] := by
  refine ⟨rfl, rfl, by decide⟩

/-- C4 (amended): whenever a readable checkpoint with offset `c > 0` and a
partial snapshot with records `R` both exist, the restarted `les-arbres` run
issues every page/chunk request at offset at least `c` (so the first `c`
records are not re-fetched) and, if it completes without fallback, returns
`R` extended by the newly fetched records only (no duplication); the
snapshot is only consulted for the accumulator, while the checkpoint alone
fixes the offset. -/
theorem c4_resume_no_refetch (env : Env) (cfg : Cfg) (c : Nat) (R : List Nat)
    (hds : cfg.dataset = "les-arbres")
    (hcp : env.cpFile = some (some c)) (hc : 0 < c) (hsnap : env.snapFile = some R) :
    (∀ o ∈ pageOffsets (fetch_from_paris_api env cfg).events, c ≤ o)
  ∧ ((fetch_from_paris_api env cfg).usedFallback = false →
      ∃ new, (fetch_from_paris_api env cfg).df = R ++ new) := by
  unfold fetch_from_paris_api
  cases hp : env.probe with
  | none =>
    dsimp only
    constructor
    · intro o ho
      rw [pageOffsets_probe, pageOffsets_csv] at ho
      simp at ho
    · intro hf
      simp at hf
  | some nh =>
    dsimp only
    split
    case isTrue hbig =>
      constructor
      · intro o ho
        rw [pageOffsets_probe, pageOffsets_csv] at ho
        simp at ho
      · intro hf
        simp at hf
    case isFalse hbig =>
      have hinit : initLesArbres env = (c, R) := by
        unfold initLesArbres
        rw [hcp, hsnap]
        simp [hc]
      rw [hinit]
      dsimp only
      obtain ⟨f1, f2, f3, f4, f5, f6⟩ :=
        fetchLoop_facts env cfg nh (nh + 1) c R c ⟨env.cpFile, env.snapFile⟩
      constructor
      · intro o ho
        rw [prependEvents_events] at ho
        rw [pageOffsets_append] at ho
        rw [pageOffsets_probe] at ho
        simp only [pageOffsets, List.filterMap_nil, List.nil_append] at ho
        exact f1 o ho
      · intro hf
        rw [prependEvents_fb] at hf
        rw [prependEvents_df]
        exact (f2 hf).1

/-- C4 witness: the resumed run requests offset 2 and the amended theorem
bounds that request by the checkpoint offset. -/
theorem c4_witness :
    (2 : Nat) ∈ pageOffsets (fetch_from_paris_api envC4w cfgC4w).events ∧ (2 : Nat) ≤ 2 :=
  ⟨by decide, (c4_resume_no_refetch envC4w cfgC4w 2 [10, 11] rfl rfl (by decide) rfl).1 2
    (by decide)⟩

/-- C5 counterexample: the run writes a checkpoint whose offset 8 exceeds
the probed total of 5, and the run ends in fallback with the checkpoint
still present on disk. -/
theorem c5_counterexample :
    envC5x.probe = some 5
  ∧ Ev.writeCp 8 ∈ (fetch_from_paris_api envC5x cfgC5x).events
  ∧ (fetch_from_paris_api envC5x cfgC5x).fs.cp = some (some 8)
  ∧ (fetch_from_paris_api envC5x cfgC5x).usedFallback = true
  ∧ ¬(8 : Nat) ≤ 5 := by
  refine ⟨rfl, by decide, by decide, by decide, by decide⟩

/-- C5 (amended): for a sequential `les-arbres` run with positive page size,
every checkpoint offset the orchestrator writes is at most the probed
`nhits`, and at run end the checkpoint can only remain on disk if the run
ended in fallback whose CSV export failed — it is deleted on completion and
on a successful fallback export.  (In parallel mode the offset bound fails,
and a failed export can leave a checkpoint, as the counterexample shows.) -/
theorem c5_checkpoint_bound_and_clear (env : Env) (cfg : Cfg)
    (hpar : cfg.parallel = false) (hrows : 1 ≤ cfg.rows)
    (hds : cfg.dataset = "les-arbres") :
    (∀ o, Ev.writeCp o ∈ (fetch_from_paris_api env cfg).events →
      ∃ nh, env.probe = some nh ∧ o ≤ nh)
  ∧ ((fetch_from_paris_api env cfg).fs.cp ≠ none →
      (fetch_from_paris_api env cfg).usedFallback = true ∧ env.csv = none) := by
  unfold fetch_from_paris_api
  cases hp : env.probe with
  | none =>
    dsimp only
    constructor
    · intro o ho
      simp at ho
      exact absurd ho (no_writeCp_csv _ _ _)
    · intro hcp
      refine ⟨rfl, ?_⟩
      cases hc : env.csv with
      | none => rfl
      | some recs =>
        have := ((fetch_csv_download_cases env ⟨env.cpFile, env.snapFile⟩).1 recs hc).2
        rw [this] at hcp
        simp at hcp
  | some nh =>
    dsimp only
    split
    case isTrue hbig =>
      constructor
      · intro o ho
        simp at ho
        exact absurd ho (no_writeCp_csv _ _ _)
      · intro hcp
        refine ⟨rfl, ?_⟩
        cases hc : env.csv with
        | none => rfl
        | some recs =>
          have := ((fetch_csv_download_cases env ⟨env.cpFile, env.snapFile⟩).1 recs hc).2
          rw [this] at hcp
          simp at hcp
    case isFalse hbig =>
      obtain ⟨f1, f2, f3, f4, f5, f6⟩ :=
        fetchLoop_facts env cfg nh (nh + 1)
          (initLesArbres env).1 (initLesArbres env).2 (initLesArbres env).1
          ⟨env.cpFile, env.snapFile⟩
      have hfuel := f6 hrows (by omega)
      constructor
      · intro o ho
        rw [prependEvents_events] at ho
        rcases List.mem_append.mp ho with h | h
        · simp at h
        · exact ⟨nh, rfl, f5 hpar o h⟩
      · intro hcp
        rw [prependEvents_fs] at hcp
        cases hfb : (fetchLoop env cfg nh (nh + 1)
            (initLesArbres env).1 (initLesArbres env).2 (initLesArbres env).1
            ⟨env.cpFile, env.snapFile⟩).usedFallback with
        | false =>
          have := ((f2 hfb).2 hfuel).2 hds
          exact absurd this hcp
        | true =>
          rw [prependEvents_fb, hfb]
          refine ⟨rfl, ?_⟩
          cases hc : env.csv with
          | none => rfl
          | some recs =>
            have := (f3 recs hc hfb).1
            rw [this] at hcp
            simp at hcp

/-- C5 witness: a checkpoint left on disk after this sequential run implies,
by the amended claim, that the run fell back and its export failed. -/
theorem c5_witness :
    (fetch_from_paris_api envC5w cfgC5w).fs.cp = some (some 1)
  ∧ ((fetch_from_paris_api envC5w cfgC5w).usedFallback = true ∧ envC5w.csv = none) :=
  ⟨by decide,
    (c5_checkpoint_bound_and_clear envC5w cfgC5w rfl (by decide) rfl).2 (by decide)⟩

/-- With every attempt failing, the retry loop performs exactly five fetches
with a 2-second sleep between consecutive attempts and reports failure. -/
theorem attemptLoop_all_fail (env : Env) (off rw : Nat)
    (h : ∀ a, a < 5 → env.page off rw a = none) :
    attemptLoop env off rw 5 0 =
      (none, [Ev.pageReq off 0, Ev.sleepSec 2, Ev.pageReq off 1, Ev.sleepSec 2,
        Ev.pageReq off 2, Ev.sleepSec 2, Ev.pageReq off 3, Ev.sleepSec 2,
        Ev.pageReq off 4]) := by
  have h0 := h 0 (by omega)
  have h1 := h 1 (by omega)
  have h2 := h 2 (by omega)
  have h3 := h 3 (by omega)
  have h4 := h 4 (by omega)
  show attemptLoop env off rw (4 + 1) 0 = _
  simp [attemptLoop, h0, h1, h2, h3, h4]

/-- C6: every page fetch of any run uses an attempt index below 5, and when
the five attempts at the current page all fail, the sequential loop returns
the fallback result whose trace is exactly the five requests separated by
2-second sleeps, followed by the persist events of `seqFailPersist`
(snapshot plus, for `les-arbres`, checkpoint) and the CSV-fallback events. -/
theorem c6_five_attempts_then_fallback :
    (∀ env cfg, ∀ o a, Ev.pageReq o a ∈ (fetch_from_paris_api env cfg).events → a < 5)
  ∧ (∀ env cfg nh fuel start all sc fs, cfg.parallel = false → start < nh →
      (∀ a, a < 5 → env.page start (min cfg.rows (nh - start)) a = none) →
      fetchLoop env cfg nh (fuel + 1) start all sc fs =
        ⟨(fetch_csv_download env (seqFailPersist cfg all start fs).1).1,
         (fetch_csv_download env (seqFailPersist cfg all start fs).1).2.1,
         [Ev.pageReq start 0, Ev.sleepSec 2, Ev.pageReq start 1, Ev.sleepSec 2,
          Ev.pageReq start 2, Ev.sleepSec 2, Ev.pageReq start 3, Ev.sleepSec 2,
          Ev.pageReq start 4] ++ (seqFailPersist cfg all start fs).2 ++
          (fetch_csv_download env (seqFailPersist cfg all start fs).1).2.2,
         true, false⟩) := by
  constructor
  · intro env cfg o a hmem
    unfold fetch_from_paris_api at hmem
    cases hp : env.probe with
    | none =>
      rw [hp] at hmem
      dsimp only at hmem
      rcases List.mem_cons.mp hmem with h | h
      · simp at h
      · exact absurd h (not_pageReq_of_offsets_nil (pageOffsets_csv _ _))
    | some nh =>
      rw [hp] at hmem
      dsimp only at hmem
      split at hmem
      case isTrue hbig =>
        rcases List.mem_cons.mp hmem with h | h
        · simp at h
        · exact absurd h (not_pageReq_of_offsets_nil (pageOffsets_csv _ _))
      case isFalse hbig =>
        rw [prependEvents_events] at hmem
        rcases List.mem_append.mp hmem with h | h
        · simp at h
        · exact (fetchLoop_facts env cfg nh (nh + 1) _ _ _ _).2.2.2.1 o a h
  · intro env cfg nh fuel start all sc fs hpar hlt hfail
    have hg : ¬(cfg.dataset = "les-arbres" ∧ cfg.parallel = true) := by
      simp [hpar]
    have ht := attemptLoop_all_fail env start (min cfg.rows (nh - start)) hfail
    simp only [fetchLoop, if_pos hlt, loopBody, if_neg hg, ht]

/-- C6 witness: a concrete all-failing page produces exactly five attempts,
2-second backoffs, no persist (nothing accumulated), then the CSV fallback. -/
theorem c6_witness :
    fetchLoop envC6w cfgC6w 1 1 0 [] 0 ⟨none, none⟩ =
      ⟨[], ⟨none, none⟩,
       [Ev.pageReq 0 0, Ev.sleepSec 2, Ev.pageReq 0 1, Ev.sleepSec 2, Ev.pageReq 0 2,
        Ev.sleepSec 2, Ev.pageReq 0 3, Ev.sleepSec 2, Ev.pageReq 0 4, Ev.csvReq],
       true, false⟩ :=
  c6_five_attempts_then_fallback.2 envC6w cfgC6w 1 0 0 [] 0 ⟨none, none⟩ rfl (by decide)
    (fun _ _ => rfl)

/-- C7: a probe failure sends the orchestrator straight to the CSV fallback:
the run is marked as fallback, its dataframe is the fallback export (empty
when that fails too), and not a single page or chunk request is issued. -/
theorem c7_probe_failure_direct_fallback (env : Env) (cfg : Cfg) (h : env.probe = none) :
    (fetch_from_paris_api env cfg).usedFallback = true
  ∧ (fetch_from_paris_api env cfg).df =
      (match env.csv with | some recs => recs | none => [])
  ∧ pageOffsets (fetch_from_paris_api env cfg).events = [] := by
  unfold fetch_from_paris_api
  rw [h]
  dsimp only
  refine ⟨rfl, ?_, ?_⟩
  · cases hc : env.csv with
    | none => simp [fetch_csv_download, hc]
    | some recs => simp [fetch_csv_download, hc]
  · rw [pageOffsets_probe, pageOffsets_csv]

/-- C7 witness: a concrete probe failure yields the fallback export with no
pagination requests. -/
theorem c7_witness :
    (fetch_from_paris_api envC7w cfgC7w).usedFallback = true
  ∧ (fetch_from_paris_api envC7w cfgC7w).df = [3, 4]
  ∧ pageOffsets (fetch_from_paris_api envC7w cfgC7w).events = [] :=
  c7_probe_failure_direct_fallback envC7w cfgC7w rfl

/-- C8, the two failure modes of the claim evaluated on the model.  First:
when the probe fails and the CSV fallback also fails, the run returns the
empty frame as a value but never writes any output file — the snapshot file
does not exist at run end, against "always produces a (possibly empty)
output file".  Second: resuming from a checkpoint at offset 5000 with a
snapshot file that exists but cannot be parsed, the unguarded
`pd.read_csv(save_as)` of line 86 raises and the error propagates — a
failure mode of one dataset's retrieval that aborts the batch. -/
theorem c8_counterexample :
    (fetch_from_paris_api envC8x cfgC8x).fs.snap = none
  ∧ (fetch_from_paris_api envC8x cfgC8x).usedFallback = true
  ∧ (fetch_from_paris_api envC8x cfgC8x).df = []
  ∧ (fetch_from_paris_api envC8x cfgC8x).events = [Ev.probeReq, Ev.csvReq]
  ∧ resumeRead 5000 (some (Except.error ("EmptyDataError: no columns to parse"))) =
      Except.error ("EmptyDataError: no columns to parse") := by
  refine ⟨by decide, by decide, by decide, by decide, rfl⟩

/-- The resume read restricted to readable-or-missing snapshot files agrees
with the oracle-based `initLesArbres` accumulator: `resumeRead` extends it
only with the raising case of an unreadable file. -/
theorem resumeRead_initLesArbres (env : Env) :
    resumeRead (initLesArbres env).1 (env.snapFile.map Except.ok) =
      Except.ok (initLesArbres env).2 := by
  unfold initLesArbres resumeRead
  rcases hcp : env.cpFile with _ | (_ | k) <;> rcases hsf : env.snapFile with _ | r <;>
    (simp; try (split <;> simp))

/-- C9 counterexample: with `nhits = 0` but a stale checkpoint and partial
snapshot on disk, the run rewrites the output file with the three stale
records instead of an empty header-only file (it still deletes the
checkpoint and does not invoke the fallback). -/
theorem c9_counterexample :
    envC9x.probe = some 0
  ∧ (fetch_from_paris_api envC9x cfgC9x).fs.snap = some [7, 8, 9]
  ∧ (fetch_from_paris_api envC9x cfgC9x).df = [7, 8, 9]
  ∧ (fetch_from_paris_api envC9x cfgC9x).usedFallback = false
  ∧ (fetch_from_paris_api envC9x cfgC9x).fs.cp = none := by
  refine ⟨rfl, by decide, by decide, by decide, by decide⟩

/-- C9 (amended): when the probe reports `nhits = 0` and no checkpoint file
exists, the run writes the empty (header-only) snapshot, leaves no
checkpoint behind, never invokes the CSV fallback, and returns the empty
frame; a stale checkpoint-plus-snapshot pair instead replays the stale
records into the output (see the counterexample). -/
theorem c9_zero_hits_header_only (env : Env) (cfg : Cfg)
    (h0 : env.probe = some 0) (hcp : env.cpFile = none) :
    (fetch_from_paris_api env cfg).fs.snap = some []
  ∧ (fetch_from_paris_api env cfg).fs.cp = none
  ∧ (fetch_from_paris_api env cfg).usedFallback = false
  ∧ (fetch_from_paris_api env cfg).df = []
  ∧ Ev.csvReq ∉ (fetch_from_paris_api env cfg).events := by
  unfold fetch_from_paris_api
  rw [h0]
  dsimp only
  have hgate : ¬(cfg.dataset = "les-arbres" ∧ 9000 < 0) := by simp
  rw [if_neg hgate]
  have hst : (if cfg.dataset = "les-arbres" then initLesArbres env else (0, [])) =
      ((0 : Nat), ([] : List Nat)) := by
    split
    · unfold initLesArbres
      rw [hcp]
      simp
    · rfl
  rw [hst]
  have hloop : fetchLoop env cfg 0 (0 + 1) 0 [] 0 ⟨env.cpFile, env.snapFile⟩ =
      completeRun env cfg 0 [] ⟨env.cpFile, env.snapFile⟩ := by
    simp [fetchLoop]
  have hcomp : completeRun env cfg 0 [] ⟨env.cpFile, env.snapFile⟩ =
      ⟨[], ⟨env.cpFile, some []⟩, [Ev.writeSnap []], false, false⟩ := by
    simp [completeRun, hcp]
  rw [hloop, hcomp]
  refine ⟨rfl, by rw [prependEvents_fs]; exact congrArg FS.cp rfl |>.trans (by rw [hcp]), rfl, rfl,
    by simp [prependEvents]⟩

/-- C9 witness: a fresh run over an empty dataset yields the header-only
snapshot, no checkpoint and no fallback. -/
theorem c9_witness :
    (fetch_from_paris_api envC9w cfgC9w).fs.snap = some []
  ∧ (fetch_from_paris_api envC9w cfgC9w).fs.cp = none
  ∧ (fetch_from_paris_api envC9w cfgC9w).usedFallback = false
  ∧ (fetch_from_paris_api envC9w cfgC9w).df = []
  ∧ Ev.csvReq ∉ (fetch_from_paris_api envC9w cfgC9w).events :=
  c9_zero_hits_header_only envC9w cfgC9w rfl rfl

/-- C10: the single-chunk fetcher is total with errors as values — a
successful response is returned with no error, any exception is returned as
the empty page plus the error description, and in every case either the
error slot is empty or the page is. -/
theorem c10_fetch_chunk_total (env : Env) (ds : String) (start rows : Nat) :
    (∀ recs, env.chunk ds start rows = Except.ok recs →
      fetch_chunk env ds start rows = (recs, none))
  ∧ (∀ e, env.chunk ds start rows = Except.error e →
      fetch_chunk env ds start rows = ([], some e))
  ∧ ((fetch_chunk env ds start rows).2 = none ∨ (fetch_chunk env ds start rows).1 = []) := by
  refine ⟨?_, ?_, ?_⟩
  · intro recs h
    unfold fetch_chunk
    rw [h]
  · intro e h
    unfold fetch_chunk
    rw [h]
  · unfold fetch_chunk
    cases env.chunk ds start rows with
    | ok recs => exact Or.inl rfl
    | error e => exact Or.inr rfl

/-- C10 witness: a failing chunk returns the empty page with its error text. -/
theorem c10_witness :
    fetch_chunk envC10w ("les-arbres") 0 1000 = ([], some ("boom")) :=
  (c10_fetch_chunk_total envC10w ("les-arbres") 0 1000).2.1 ("boom") rfl

